import Mathlib

/-!
# Verification of the uvc QUICVC / ownership-lifecycle reference implementation

Shallow embedding, in Lean 4, of the C sources of the repository:

* `packages/quicvc-protocol/c-headers/quicvc_protocol.c` — variable-length
  integer codec and STREAM-frame parser/serializer (`Wire` namespace);
* `esp32-reference/esp32-quicvc-crypto.c` — directional key derivation and
  AEAD packet protection (`Crypto` namespace), with SHA-256 implemented
  concretely (`Sha256` namespace) and the external mbedtls AES-GCM primitive
  modelled as an ideal authenticated-encryption scheme over byte lists;
* `esp32-reference/esp32-quicvc-minimal.c` — the minimal handshake state
  machine (`Minimal` namespace);
* `esp32-reference/esp32-handle-vc-provisioning.c` — VC-presentation
  provisioning handler (`Provision` namespace);
* `esp32-reference/esp32-credential-handler.c` — credential-service
  provisioning handler (`CredService` namespace);
* `esp32-reference/esp32-ownership-removal-handler.c` — ownership removal
  handler (`Removal` namespace).

Machine integers are modelled as `Nat` with explicit reductions where the C
code can overflow; C strings as `String`; byte buffers as `List Nat` whose
entries are below 256; fallible NVS (persistence) operations take explicit
fault-injection flags, with a failed commit leaving the durable store
unchanged (the store is specified as an atomic put/erase/commit
collaborator).  JSON payloads are modelled as already-decoded structures
with `Option` fields: a missing field corresponds to `cJSON_GetObjectItem`
returning `NULL`.
-/

set_option maxRecDepth 100000

namespace Wire

/-- `QUICVC_VARINT_1_BYTE_MAX` from quicvc_protocol.h. -/
def QUICVC_VARINT_1_BYTE_MAX : Nat := 63

/-- `QUICVC_VARINT_2_BYTE_MAX` from quicvc_protocol.h. -/
def QUICVC_VARINT_2_BYTE_MAX : Nat := 16383

/-- `QUICVC_VARINT_4_BYTE_MAX` from quicvc_protocol.h. -/
def QUICVC_VARINT_4_BYTE_MAX : Nat := 1073741823

/-- `QUICVC_FRAME_STREAM` (0x08) from quicvc_protocol.h. -/
def QUICVC_FRAME_STREAM : Nat := 0x08

/-- `QUICVC_STREAM_FIN_BIT` (0x01). -/
def QUICVC_STREAM_FIN_BIT : Nat := 0x01

/-- `QUICVC_STREAM_LEN_BIT` (0x02). -/
def QUICVC_STREAM_LEN_BIT : Nat := 0x02

/-- `QUICVC_STREAM_OFF_BIT` (0x04). -/
def QUICVC_STREAM_OFF_BIT : Nat := 0x04

/-- Embedding of `quicvc_encode_varint`.  The C function writes into a
caller buffer of size `out_size` and returns the number of bytes written
(0 on failure); we return the list of bytes actually written, so the C
return value is the length of the result and failure is the empty list. -/
def quicvc_encode_varint (value : Nat) (out_size : Nat) : List Nat :=
  if value ≤ QUICVC_VARINT_1_BYTE_MAX then
    if out_size < 1 then [] else
    [value]
  else if value ≤ QUICVC_VARINT_2_BYTE_MAX then
    if out_size < 2 then [] else
    [0x40 ||| ((value >>> 8) &&& 0x3F), value &&& 0xFF]
  else if value ≤ QUICVC_VARINT_4_BYTE_MAX then
    if out_size < 4 then [] else
    [0x80 ||| ((value >>> 24) &&& 0x3F), (value >>> 16) &&& 0xFF,
     (value >>> 8) &&& 0xFF, value &&& 0xFF]
  else
    if out_size < 8 then [] else
    [0xC0 ||| ((value >>> 56) &&& 0x3F), (value >>> 48) &&& 0xFF,
     (value >>> 40) &&& 0xFF, (value >>> 32) &&& 0xFF,
     (value >>> 24) &&& 0xFF, (value >>> 16) &&& 0xFF,
     (value >>> 8) &&& 0xFF, value &&& 0xFF]

/-- `quicvc_varint_result_t`. -/
structure VarintResult where
  value : Nat
  bytes_read : Nat
deriving DecidableEq, Repr

/-- Embedding of `quicvc_decode_varint`.  `data` is the byte buffer
(`data_len` is its length).  The C `switch` is on the top two bits of the
first byte; for genuine bytes (< 256) the selector is always 0–3. -/
def quicvc_decode_varint (data : List Nat) : VarintResult :=
  if data.length < 1 then ⟨0, 0⟩
  else
    let first_byte := data.getD 0 0
    let pfx := first_byte >>> 6
    if pfx = 0 then
      ⟨first_byte &&& 0x3F, 1⟩
    else if pfx = 1 then
      if data.length < 2 then ⟨0, 0⟩ else
      ⟨((first_byte &&& 0x3F) <<< 8) ||| data.getD 1 0, 2⟩
    else if pfx = 2 then
      if data.length < 4 then ⟨0, 0⟩ else
      ⟨((first_byte &&& 0x3F) <<< 24) ||| (data.getD 1 0 <<< 16) |||
        (data.getD 2 0 <<< 8) ||| data.getD 3 0, 4⟩
    else if pfx = 3 then
      if data.length < 8 then ⟨0, 0⟩ else
      ⟨((first_byte &&& 0x3F) <<< 56) ||| (data.getD 1 0 <<< 48) |||
        (data.getD 2 0 <<< 40) ||| (data.getD 3 0 <<< 32) |||
        (data.getD 4 0 <<< 24) ||| (data.getD 5 0 <<< 16) |||
        (data.getD 6 0 <<< 8) ||| data.getD 7 0, 8⟩
    else ⟨0, 0⟩

/-- Embedding of `quicvc_get_varint_size`. -/
def quicvc_get_varint_size (value : Nat) : Nat :=
  if value ≤ QUICVC_VARINT_1_BYTE_MAX then 1
  else if value ≤ QUICVC_VARINT_2_BYTE_MAX then 2
  else if value ≤ QUICVC_VARINT_4_BYTE_MAX then 4
  else 8

/-- `quicvc_stream_frame_t`.  The `data` pointer/`data_len` pair becomes a
byte list (NULL becomes `[]`). -/
structure StreamFrame where
  frame_type : Nat
  stream_id : Nat
  offset : Nat
  length : Nat
  data : List Nat
  data_len : Nat
  has_fin : Bool
  has_len : Bool
  has_off : Bool
deriving DecidableEq, Repr

/-- The all-zero `quicvc_stream_frame_t` (the C parser's `result = {{0}, 0}`
initialisation). -/
def zeroStreamFrame : StreamFrame :=
  { frame_type := 0, stream_id := 0, offset := 0, length := 0, data := [],
    data_len := 0, has_fin := false, has_len := false, has_off := false }

/-- `quicvc_stream_parse_result_t`. -/
structure StreamParseResult where
  frame : StreamFrame
  bytes_consumed : Nat
deriving DecidableEq, Repr

/-- Embedding of `quicvc_parse_stream_frame`.  Mirrors the C control flow,
including the partially filled frame returned (with `bytes_consumed = 0`)
when a later varint fails to decode. -/
def quicvc_parse_stream_frame (data : List Nat) : StreamParseResult :=
  if data.length < 2 then ⟨zeroStreamFrame, 0⟩
  else
    let frame_type := data.getD 0 0
    if frame_type &&& 0xF8 ≠ QUICVC_FRAME_STREAM then ⟨zeroStreamFrame, 0⟩
    else
      let f0 : StreamFrame :=
        { zeroStreamFrame with
          frame_type := frame_type,
          has_fin := frame_type &&& QUICVC_STREAM_FIN_BIT ≠ 0,
          has_len := frame_type &&& QUICVC_STREAM_LEN_BIT ≠ 0,
          has_off := frame_type &&& QUICVC_STREAM_OFF_BIT ≠ 0 }
      let sidRes := quicvc_decode_varint (data.drop 1)
      if sidRes.bytes_read = 0 then ⟨f0, 0⟩
      else
        let f1 := { f0 with stream_id := sidRes.value }
        let off1 := 1 + sidRes.bytes_read
        let offRes := quicvc_decode_varint (data.drop off1)
        if f1.has_off ∧ offRes.bytes_read = 0 then ⟨f1, 0⟩
        else
          let f2 := if f1.has_off then { f1 with offset := offRes.value }
                    else { f1 with offset := 0 }
          let off2 := if f1.has_off then off1 + offRes.bytes_read else off1
          let lenRes := quicvc_decode_varint (data.drop off2)
          if f2.has_len ∧ lenRes.bytes_read = 0 then ⟨f2, 0⟩
          else
            let f3 :=
              if f2.has_len then
                { f2 with length := lenRes.value, data_len := lenRes.value }
              else
                { f2 with length := data.length - off2,
                          data_len := data.length - off2 }
            let off3 := if f2.has_len then off2 + lenRes.bytes_read else off2
            if data.length < off3 + f3.data_len then ⟨f3, 0⟩
            else
              ⟨{ f3 with data := (data.drop off3).take f3.data_len },
               off3 + f3.data_len⟩

/-- The frame-type byte computed by `quicvc_serialize_stream_frame`:
`QUICVC_FRAME_STREAM` with the FIN/LEN/OFF flag bits or-ed in. -/
def ftByte (fin len off : Bool) : Nat :=
  let ft1 := if fin then QUICVC_FRAME_STREAM ||| QUICVC_STREAM_FIN_BIT
             else QUICVC_FRAME_STREAM
  let ft2 := if len then ft1 ||| QUICVC_STREAM_LEN_BIT else ft1
  if off then ft2 ||| QUICVC_STREAM_OFF_BIT else ft2

/-- Embedding of `quicvc_serialize_stream_frame`.  The C function returns the
number of bytes written into `out` (0 on failure); we return the written
bytes, `none` on failure. -/
def quicvc_serialize_stream_frame (frame : StreamFrame) (out_size : Nat) :
    Option (List Nat) :=
  if out_size < 2 then none
  else
    let ft3 := ftByte frame.has_fin frame.has_len frame.has_off
    let sidB := quicvc_encode_varint frame.stream_id (out_size - 1)
    if sidB.length = 0 then none
    else
      let used1 := 1 + sidB.length
      let offB := if frame.has_off then
                    quicvc_encode_varint frame.offset (out_size - used1)
                  else []
      if frame.has_off ∧ offB.length = 0 then none
      else
        let used2 := used1 + offB.length
        let lenB := if frame.has_len then
                      quicvc_encode_varint frame.data_len (out_size - used2)
                    else []
        if frame.has_len ∧ lenB.length = 0 then none
        else
          let used3 := used2 + lenB.length
          if frame.data ≠ [] ∧ 0 < frame.data_len then
            if out_size < used3 + frame.data_len then none
            else some (ft3 :: (sidB ++ offB ++ lenB ++ frame.data.take frame.data_len))
          else some (ft3 :: (sidB ++ offB ++ lenB))

/-- The canonical encoding of a varint (room 8 suffices for every class). -/
def encB (v : Nat) : List Nat := quicvc_encode_varint v 8

/-- The byte sequence produced by a successful
`quicvc_serialize_stream_frame` call on a well-formed frame. -/
def serializedStreamFrame (f : StreamFrame) : List Nat :=
  ftByte f.has_fin f.has_len f.has_off ::
    (encB f.stream_id ++ (if f.has_off then encB f.offset else []) ++
     (if f.has_len then encB f.data_len else []) ++ f.data)

end Wire

namespace Sha256

/-- 2^32, the modulus of the 32-bit word arithmetic. -/
def M32 : Nat := 4294967296

/-- 32-bit rotate right. -/
def rotr (n x : Nat) : Nat := ((x >>> n) ||| (x <<< (32 - n))) % M32

/-- The SHA-256 round constants (FIPS 180-4 §4.2.2), in decimal. -/
def K : List Nat :=
  [1116352408, 1899447441, 3049323471, 3921009573, 961987163, 1508970993,
   2453635748, 2870763221, 3624381080, 310598401, 607225278, 1426881987,
   1925078388, 2162078206, 2614888103, 3248222580, 3835390401, 4022224774,
   264347078, 604807628, 770255983, 1249150122, 1555081692, 1996064986,
   2554220882, 2821834349, 2952996808, 3210313671, 3336571891, 3584528711,
   113926993, 338241895, 666307205, 773529912, 1294757372, 1396182291,
   1695183700, 1986661051, 2177026350, 2456956037, 2730485921, 2820302411,
   3259730800, 3345764771, 3516065817, 3600352804, 4094571909, 275423344,
   430227734, 506948616, 659060556, 883997877, 958139571, 1322822218,
   1537002063, 1747873779, 1955562222, 2024104815, 2227730452, 2361852424,
   2428436474, 2756734187, 3204031479, 3329325298]

/-- The SHA-256 initial hash state (FIPS 180-4 §5.3.3), in decimal. -/
def H0 : List Nat :=
  [1779033703, 3144134277, 1013904242, 2773480762,
   1359893119, 2600822924, 528734635, 1541459225]

/-- Σ₀. -/
def bigS0 (x : Nat) : Nat := rotr 2 x ^^^ rotr 13 x ^^^ rotr 22 x

/-- Σ₁. -/
def bigS1 (x : Nat) : Nat := rotr 6 x ^^^ rotr 11 x ^^^ rotr 25 x

/-- σ₀. -/
def smallS0 (x : Nat) : Nat := rotr 7 x ^^^ rotr 18 x ^^^ (x >>> 3)

/-- σ₁. -/
def smallS1 (x : Nat) : Nat := rotr 17 x ^^^ rotr 19 x ^^^ (x >>> 10)

/-- SHA-256 `Ch` (the complement is XOR with the 32-bit all-ones mask). -/
def ch (x y z : Nat) : Nat := (x &&& y) ^^^ ((x ^^^ 0xFFFFFFFF) &&& z)

/-- SHA-256 `Maj`. -/
def maj (x y z : Nat) : Nat := (x &&& y) ^^^ (x &&& z) ^^^ (y &&& z)

/-- Big-endian 8-byte encoding of a length in bits. -/
def be64 (n : Nat) : List Nat :=
  [(n >>> 56) &&& 255, (n >>> 48) &&& 255, (n >>> 40) &&& 255, (n >>> 32) &&& 255,
   (n >>> 24) &&& 255, (n >>> 16) &&& 255, (n >>> 8) &&& 255, n &&& 255]

/-- SHA-256 padding: `0x80`, zeros to 56 mod 64, then the bit length. -/
def pad (msg : List Nat) : List Nat :=
  let L := msg.length
  let k := (119 - L % 64) % 64
  msg ++ 0x80 :: List.replicate k 0 ++ be64 (8 * L)

/-- Big-endian grouping of bytes into 32-bit words. -/
def toWords : List Nat → List Nat
  | a :: b :: c :: d :: rest => (((a * 256 + b) * 256 + c) * 256 + d) :: toWords rest
  | _ => []

/-- Message-schedule extension by `t` additional words. -/
def extendW (w : List Nat) : Nat → List Nat
  | 0 => w
  | t + 1 =>
    let w' := extendW w t
    let m := w'.length
    w' ++ [(smallS1 (w'.getD (m - 2) 0) + w'.getD (m - 7) 0 +
            smallS0 (w'.getD (m - 15) 0) + w'.getD (m - 16) 0) % M32]

/-- One SHA-256 compression round on the 8-word working state. -/
def round1 (w : List Nat) (st : List Nat) (t : Nat) : List Nat :=
  match st with
  | [a, b, c, d, e, f, g, h] =>
    let t1 := (h + bigS1 e + ch e f g + K.getD t 0 + w.getD t 0) % M32
    let t2 := (bigS0 a + maj a b c) % M32
    [(t1 + t2) % M32, a, b, c, (d + t1) % M32, e, f, g]
  | _ => st

/-- Compression of one 16-word block into the hash state. -/
def compress (h : List Nat) (blk : List Nat) : List Nat :=
  let w := extendW blk 48
  let fin := (List.range 64).foldl (round1 w) h
  List.zipWith (fun x y => (x + y) % M32) h fin

/-- Split a word list into blocks of 16 words (structural recursion so the
kernel can evaluate it; padded input always has a multiple of 16 words). -/
def chunk16 : List Nat → List (List Nat)
  | [] => []
  | x1 :: x2 :: x3 :: x4 :: x5 :: x6 :: x7 :: x8 ::
      x9 :: x10 :: x11 :: x12 :: x13 :: x14 :: x15 :: x16 :: rest =>
    [x1, x2, x3, x4, x5, x6, x7, x8, x9, x10, x11, x12, x13, x14, x15, x16] ::
      chunk16 rest
  | l => [l]

/-- Big-endian serialization of the final hash words. -/
def wordsToBytes (ws : List Nat) : List Nat :=
  ws.foldr (fun w acc =>
    ((w >>> 24) &&& 255) :: ((w >>> 16) &&& 255) :: ((w >>> 8) &&& 255) :: (w &&& 255) :: acc) []

/-- SHA-256 of a byte list, as computed by the chained
`mbedtls_sha256_starts/update/finish` calls in the C sources (checked
against the FIPS 180-4 test vectors). -/
def sha256 (msg : List Nat) : List Nat :=
  wordsToBytes ((chunk16 (toWords (pad msg))).foldl compress H0)

end Sha256

/-- Bytes of an ASCII string, as passed to `mbedtls_sha256_update`. -/
def strBytes (s : String) : List Nat := s.toList.map Char.toNat

/-- Character-prefix truncation, the model of a bounded `strncpy` (defined
over the character list so the kernel can evaluate it). -/
def stringTake (s : String) (n : Nat) : String := String.mk (s.data.take n)

namespace Minimal

/-- `quicvc_connection_t` from esp32-quicvc-minimal.c: state is 0 = initial,
1 = handshake, 2 = established. -/
structure QuicvcConnection where
  dcid : List Nat
  scid : List Nat
  state : Nat
  session_key : List Nat
  packet_number : Nat
  last_activity : Nat
deriving DecidableEq, Repr

/-- The credential object inside a VC_INIT payload; only its `issuer` string
is inspected by `handle_vc_init`. -/
structure VcInitCred where
  issuer : Option String
deriving DecidableEq, Repr

/-- A parsed VC_INIT JSON payload (`cJSON_ParseWithLength` result); absent
object fields are `none`. -/
structure VcInitMsg where
  credential : Option VcInitCred
  challenge : Option String
deriving DecidableEq, Repr

/-- The salt of `derive_session_key`: `sizeof(salt)` includes the
terminating NUL byte, so the hash input ends with a zero byte. -/
def saltStr : String := "quicvc-esp32-v1"

/-- Salt bytes including the NUL terminator. -/
def saltBytes : List Nat := strBytes saltStr ++ [0]

/-- Embedding of `derive_session_key` from esp32-quicvc-minimal.c. -/
def derive_session_key (local_cred_id remote_cred_id chal : String) : List Nat :=
  Sha256.sha256 (strBytes local_cred_id ++ strBytes remote_cred_id ++
    strBytes chal ++ saltBytes)

/-- Embedding of `handle_vc_init` from esp32-quicvc-minimal.c.  Inputs: the
parsed VC_INIT payload (`none` = JSON parse failure), the device
credential's issuer, the device id, the random connection id bytes drawn
by `esp_fill_random`, the current time, and the current
`active_connection`.  Result: the new `active_connection`.

Faithful control flow: parse/field/issuer failures leave the connection
unchanged; on a valid message the old record is freed and replaced, the
session key is derived, `state` is set to 1 (handshake), the VC_RESPONSE
packet is emitted (incrementing `packet_number` from 0 to 1), and `state`
is then immediately set to 2 (established) — the visible state after the
call is 2. -/
def handle_vc_init (msg : Option VcInitMsg) (device_credential_issuer : String)
    (device_id : String) (rand_cid : List Nat) (now : Nat)
    (conn : Option QuicvcConnection) : Option QuicvcConnection :=
  match msg with
  | none => conn
  | some m =>
    match m.credential, m.challenge with
    | some cred, some chal =>
      match cred.issuer with
      | none => conn
      | some iss =>
        if iss ≠ device_credential_issuer then conn
        else
          some { dcid := rand_cid, scid := rand_cid, state := 2,
                 session_key := derive_session_key device_id iss chal,
                 packet_number := 1, last_activity := now }
    | _, _ => conn

/-- Concrete issuer identity for the evaluation theorems. -/
def issuerA : String := "alice-owner-id"

/-- Concrete challenge for the evaluation theorems. -/
def challengeA : String := "challenge-1"

/-- Concrete device id for the evaluation theorems. -/
def deviceA : String := "esp32-device-1"

end Minimal

namespace Crypto

/-- The domain-separation tag hashed into the server's send key (and the
client's receive key). -/
def serverSendStr : String := "server-send"

/-- The domain-separation tag hashed into the client's send key (and the
server's receive key). -/
def clientSendStr : String := "client-send"

/-- The (role-independent) tag hashed to produce the IV material. -/
def ivMaterialStr : String := "iv-material"

/-- `quicvc_crypto_t` from esp32-quicvc-crypto.c. -/
structure QuicvcCrypto where
  send_key : List Nat
  recv_key : List Nat
  send_iv : List Nat
  recv_iv : List Nat
  send_counter : Nat
  recv_counter : Nat
deriving DecidableEq, Repr

/-- The key/IV material produced by `quicvc_derive_keys` (the C function
stores it into the global `crypto_ctx`). -/
structure DerivedKeys where
  send_key : List Nat
  recv_key : List Nat
  send_iv : List Nat
  recv_iv : List Nat
deriving DecidableEq, Repr

/-- Embedding of `quicvc_derive_keys`: each key is SHA-256 of the session
key followed by an 11-byte role/direction tag; the IV material is SHA-256
of the session key followed by the role-independent tag `iv-material`,
its first 12 bytes becoming `send_iv` and bytes 12–23 becoming `recv_iv`
for **both** roles. -/
def quicvc_derive_keys (session_key : List Nat) (is_server : Bool) : DerivedKeys :=
  let iv_material := Sha256.sha256 (session_key ++ strBytes ivMaterialStr)
  { send_key := Sha256.sha256
      (session_key ++ strBytes (if is_server then serverSendStr else clientSendStr)),
    recv_key := Sha256.sha256
      (session_key ++ strBytes (if is_server then clientSendStr else serverSendStr)),
    send_iv := iv_material.take 12,
    recv_iv := (iv_material.drop 12).take 12 }

/-- Byte `i` (little-endian) of a 64-bit packet number:
`(packet_number >> (i * 8)) & 0xFF`. -/
def pnByte (pn i : Nat) : Nat := (pn >>> (i * 8)) &&& 0xFF

/-- The nonce construction shared by `quicvc_encrypt_packet` and
`quicvc_decrypt_packet`: start from the 12-byte IV and XOR
`(packet_number >> (i*8)) & 0xFF` into `nonce[11 - i]` for `i = 0..7`. -/
def mkNonce (iv : List Nat) (pn : Nat) : List Nat :=
  (List.range 12).map
    (fun j => if 4 ≤ j then iv.getD j 0 ^^^ pnByte pn (11 - j) else iv.getD j 0)

/-- Injective numeric code of a byte list (base 257 with digits 1–256);
used by the ideal model of the AES-GCM tag. -/
def encodeBytes (l : List Nat) : Nat :=
  l.foldr (fun a acc => acc * 257 + a + 1) 0

/-- Keystream byte of the ideal AEAD model (any keyed byte function works;
the theorems only use that masking is a per-byte involution). -/
def ksByte (key nonce : List Nat) (i : Nat) : Nat :=
  (encodeBytes key + encodeBytes nonce + i) % 256

/-- XOR a byte list against the keystream starting at position `i`
(involutive, so it is both the encryption and decryption direction). -/
def maskFrom (key nonce : List Nat) (i : Nat) : List Nat → List Nat
  | [] => []
  | x :: rest => (x ^^^ ksByte key nonce i) :: maskFrom key nonce (i + 1) rest

/-- The 16-entry authentication tag of the ideal AEAD model: it determines
key, nonce and plaintext, so verification rejects any other key, nonce,
or tampered payload — the idealisation of the mbedtls AES-GCM guarantee
(16-byte tag appended to the ciphertext). -/
def macTag (key nonce pt : List Nat) : List Nat :=
  encodeBytes key :: encodeBytes nonce :: encodeBytes pt :: List.replicate 13 0

/-- Ideal model of `mbedtls_gcm_crypt_and_tag` (encrypt direction) with the
tag appended, as `quicvc_encrypt_packet` does with its 16-byte tag. -/
def gcmEncrypt (key nonce pt : List Nat) : List Nat :=
  maskFrom key nonce 0 pt ++ macTag key nonce pt

/-- Ideal model of `mbedtls_gcm_auth_decrypt`: recompute the plaintext from
the body, verify the tag, return `none` on any mismatch (the C wrapper
then returns `ESP_FAIL` and exposes no plaintext). -/
def gcmDecrypt (key nonce body tag : List Nat) : Option (List Nat) :=
  let pt := maskFrom key nonce 0 body
  if tag = macTag key nonce pt then some pt else none

/-- Embedding of `quicvc_encrypt_packet`: build the nonce from `send_iv`
and the packet number, AEAD-encrypt under `send_key`, append the 16-byte
tag (`cipher_len = plain_len + 16`), and increment `send_counter`. -/
def quicvc_encrypt_packet (ctx : QuicvcCrypto) (plaintext : List Nat)
    (packet_number : Nat) : List Nat × QuicvcCrypto :=
  let nonce := mkNonce ctx.send_iv packet_number
  (gcmEncrypt ctx.send_key nonce plaintext,
   { ctx with send_counter := ctx.send_counter + 1 })

/-- Embedding of `quicvc_decrypt_packet`: reject ciphertexts shorter than
the 16-byte tag, build the nonce from `recv_iv` and the packet number,
AEAD-verify/decrypt under `recv_key`; `recv_counter` advances only on
success.  The packet number is the caller-supplied argument — the
function performs no comparison against `recv_counter`. -/
def quicvc_decrypt_packet (ctx : QuicvcCrypto) (ciphertext : List Nat)
    (packet_number : Nat) : Option (List Nat × QuicvcCrypto) :=
  if ciphertext.length < 16 then none
  else
    let nonce := mkNonce ctx.recv_iv packet_number
    let data_len := ciphertext.length - 16
    match gcmDecrypt ctx.recv_key nonce (ciphertext.take data_len)
        (ciphertext.drop data_len) with
    | none => none
    | some pt => some (pt, { ctx with recv_counter := ctx.recv_counter + 1 })

/-- `QUICVC_PROTECTED` packet type from esp32-quicvc-minimal.c. -/
def QUICVC_PROTECTED : Nat := 0x02

/-- `QUICVC_VERSION`. -/
def QUICVC_VERSION : Nat := 1

/-- `CONNECTION_ID_LEN`. -/
def CONNECTION_ID_LEN : Nat := 16

/-- Big-endian 4-byte encoding (`htonl`). -/
def be32 (n : Nat) : List Nat :=
  [(n >>> 24) &&& 255, (n >>> 16) &&& 255, (n >>> 8) &&& 255, n &&& 255]

/-- Little-endian 8-byte encoding (the `memcpy` of a `uint64_t` on the
little-endian ESP32). -/
def le64 (n : Nat) : List Nat :=
  [n &&& 255, (n >>> 8) &&& 255, (n >>> 16) &&& 255, (n >>> 24) &&& 255,
   (n >>> 32) &&& 255, (n >>> 40) &&& 255, (n >>> 48) &&& 255, (n >>> 56) &&& 255]

/-- Embedding of `quicvc_build_encrypted_packet`: requires an established
connection (`state == 2`), uses `conn->packet_number` as the packet
number (post-incrementing it), encrypts the payload, and assembles the
Protected packet.  Returns the packet bytes, the packet number used, and
the updated connection and crypto states. -/
def quicvc_build_encrypted_packet (conn : Minimal.QuicvcConnection)
    (ctx : QuicvcCrypto) (payload : List Nat) :
    Option (List Nat × Nat × Minimal.QuicvcConnection × QuicvcCrypto) :=
  if conn.state ≠ 2 then none
  else
    let pkt_num := conn.packet_number
    let conn' := { conn with packet_number := pkt_num + 1 }
    let encCtx := quicvc_encrypt_packet ctx payload pkt_num
    some (QUICVC_PROTECTED :: (be32 QUICVC_VERSION ++
            [CONNECTION_ID_LEN, CONNECTION_ID_LEN] ++ conn.dcid ++ conn.scid ++
            le64 pkt_num ++ encCtx.1),
          pkt_num, conn', encCtx.2)

/-- The sequence of packet numbers used by successive successful calls to
`quicvc_build_encrypted_packet`, one per payload (stopping at the first
failure). -/
def quicvc_send_pns (conn : Minimal.QuicvcConnection) (ctx : QuicvcCrypto) :
    List (List Nat) → List Nat
  | [] => []
  | p :: rest =>
    match quicvc_build_encrypted_packet conn ctx p with
    | none => []
    | some (_, pn, conn', ctx') => pn :: quicvc_send_pns conn' ctx' rest

end Crypto

namespace Provision

/-- Message-type string `vc_request`. -/
def vcRequestStr : String := "vc_request"

/-- Message-type string `present_vc`. -/
def presentVcStr : String := "present_vc"

/-- Purpose string `device_provisioning`. -/
def deviceProvisioningStr : String := "device_provisioning"

/-- The `vc` object of a `present_vc` message: `issuer` is the inspected
field (`none` when `cJSON_GetStringValue` yields NULL); `printed` stands
for `cJSON_PrintUnformatted(vc)`, the credential blob that gets stored. -/
structure VcObject where
  issuer : Option String
  printed : String
deriving DecidableEq, Repr

/-- A parsed VC-exchange JSON message. -/
structure VcMsg where
  msgType : Option String
  purpose : Option String
  vc : Option VcObject
deriving DecidableEq, Repr

/-- The `device_cred` NVS namespace: keys `owner_id` (string), `credential`
(blob) and `is_owned` (u8), as read/written by
esp32-handle-vc-provisioning.c.  This is the durable `OwnershipRecord`. -/
structure DeviceCredStore where
  owner_id : Option String
  credential : Option String
  is_owned : Option Nat
deriving DecidableEq, Repr

/-- In-memory device state touched by `handle_vc_exchange_message`. -/
structure VcDeviceState where
  nvs : DeviceCredStore
  attestation_owned : Bool
  attestation_owner : Option String
  cached_ownership_checked : Bool
  cached_has_owner : Bool
  owner_last_address : String
  owner_last_port : Nat
  owner_address_known : Bool
deriving DecidableEq, Repr

/-- Fault-injection flags for the NVS operations of the provisioning path
(`true` = the C call returns `ESP_OK`). -/
structure NvsFaults where
  openOk : Bool
  setOwnerOk : Bool
  setCredOk : Bool
  setOwnedOk : Bool
  commitOk : Bool
deriving DecidableEq, Repr

/-- Embedding of `has_owner` from esp32-handle-vc-provisioning.c: open the
`device_cred` namespace read-only and test `is_owned == 1`; any read
error counts as unowned. -/
def has_owner (s : DeviceCredStore) : Bool :=
  s.is_owned = some 1

/-- Outcome of one `handle_vc_exchange_message` call, one constructor per
distinct C return/log path. -/
inductive VcProvisionResult where
  | parseFail
  | noType
  | ignoredType
  | noVc
  | invalidIssuer
  | alreadyOwned
  | nvsOpenFail
  | storeOwnerFail
  | commitFail
  | provisioned
deriving DecidableEq, Repr

/-- Embedding of `handle_vc_exchange_message` (provisioning path) from
esp32-handle-vc-provisioning.c.  The NVS store is the atomic
put/commit collaborator: staged `nvs_set_*` writes reach the durable
store only when `nvs_commit` succeeds.  A failed `nvs_set_str` for the
credential blob or for the `is_owned` flag is only logged and the
handler continues (faithful to the C); a failed owner-id write aborts
before commit; the in-memory ownership/attestation state is updated only
in the branch where the commit has returned `ESP_OK`. -/
def handle_vc_exchange_message (msg : Option VcMsg) (st : VcDeviceState)
    (sender_ip : String) (sender_port : Nat) (f : NvsFaults) :
    VcProvisionResult × VcDeviceState :=
  match msg with
  | none => (VcProvisionResult.parseFail, st)
  | some m =>
    match m.msgType with
    | none => (VcProvisionResult.noType, st)
    | some t =>
      if t = vcRequestStr then (VcProvisionResult.ignoredType, st)
      else if t = presentVcStr then
        match m.purpose with
        | none => (VcProvisionResult.ignoredType, st)
        | some pur =>
          if pur = deviceProvisioningStr then
            match m.vc with
            | none => (VcProvisionResult.noVc, st)
            | some vc =>
              match vc.issuer with
              | none => (VcProvisionResult.invalidIssuer, st)
              | some iss =>
                if iss.length ≠ 64 then (VcProvisionResult.invalidIssuer, st)
                else if has_owner st.nvs then (VcProvisionResult.alreadyOwned, st)
                else if ¬ f.openOk then (VcProvisionResult.nvsOpenFail, st)
                else if ¬ f.setOwnerOk then (VcProvisionResult.storeOwnerFail, st)
                else
                  let staged1 := { st.nvs with owner_id := some iss }
                  let staged2 := if f.setCredOk then
                      { staged1 with credential := some vc.printed } else staged1
                  let staged3 := if f.setOwnedOk then
                      { staged2 with is_owned := some 1 } else staged2
                  if f.commitOk then
                    (VcProvisionResult.provisioned,
                     { st with
                       nvs := staged3,
                       attestation_owned := true,
                       attestation_owner := some iss,
                       cached_ownership_checked := false,
                       owner_last_address := sender_ip,
                       owner_last_port := sender_port,
                       owner_address_known := true })
                  else (VcProvisionResult.commitFail, st)
          else (VcProvisionResult.ignoredType, st)
      else (VcProvisionResult.ignoredType, st)

/-- A 64-character (canonical-length) issuer identity for the evaluation
theorems. -/
def issuer64 : String :=
  "aaaaaaaaaaaaaaaaaaaaaaaaaaaaaaaaaaaaaaaaaaaaaaaaaaaaaaaaaaaaaaaa"

/-- A concrete credential blob for the evaluation theorems. -/
def blobA : String := "vc-json-blob"

/-- A concrete sender address for the evaluation theorems. -/
def ipA : String := "192.168.1.7"

end Provision

namespace CredService

/-- Ownership-type string `owner`. -/
def ownerStr : String := "owner"

/-- Ownership-type string `admin`. -/
def adminStr : String := "admin"

/-- NVS key stem for stored credentials (`snprintf(key, 32, "cred_%s", id)`
truncates to 31 characters). -/
def credKeyStem : String := "cred_"

/-- NVS key for a credential id. -/
def credKey (id : String) : String := stringTake (credKeyStem ++ id) 31

/-- `parsed_credential_t` from esp32-credential-handler.c (all string
fields zero-initialised to `""`, numbers to 0, `is_valid` to `false`). -/
structure ParsedCred where
  id : String
  iss : String
  sub : String
  dev : String
  typ : String
  iat : Int
  exp : Int
  own : String
  prm : String
  prf : String
  mac : String
  is_valid : Bool
deriving DecidableEq, Repr

/-- The field set that `store_credential` serialises into the stored blob
(`cJSON_PrintUnformatted` of id/iss/sub/dev/own/prm/iat/exp); the blob is
modelled as this structure since the JSON serialisation is injective on
it. -/
structure StoredCred where
  id : String
  iss : String
  sub : String
  dev : String
  own : String
  prm : String
  iat : Int
  exp : Int
deriving DecidableEq, Repr

/-- The serialised fields of a parsed credential. -/
def storedOf (c : ParsedCred) : StoredCred :=
  { id := c.id, iss := c.iss, sub := c.sub, dev := c.dev, own := c.own,
    prm := c.prm, iat := c.iat, exp := c.exp }

/-- State of esp32-credential-handler.c: the in-memory globals
`current_owner` (empty string = none) and `has_owner_flag`, and the
durable `credentials` NVS namespace (`owner` key plus stored credential
blobs). -/
structure CredHandlerState where
  current_owner : String
  has_owner_flag : Bool
  nvs_owner : Option String
  nvs_creds : List (String × StoredCred)
deriving DecidableEq, Repr

/-- Fault-injection flags for the NVS operations of `store_credential`. -/
structure CredFaults where
  handleOk : Bool
  setOwnerOk : Bool
  setCredOk : Bool
  commitOk : Bool
deriving DecidableEq, Repr

/-- The JSON field set of the inner credential object. -/
structure CredJsonFields where
  id : Option String
  iss : Option String
  sub : Option String
  dev : Option String
  typ : Option String
  iat : Option Int
  exp : Option Int
  own : Option String
  prm : Option String
  prf : Option String
  mac : Option String
  is_valid : Option Bool
deriving DecidableEq, Repr

/-- Input of `parse_credential_json`: outer JSON parse, presence of the
`credential` string field, and inner JSON parse can each fail. -/
inductive CredPayload where
  | badJson
  | noCredField
  | badInner
  | ok (fields : CredJsonFields)
deriving DecidableEq, Repr

/-- Embedding of `parse_credential_json`: zero-initialise the credential
and `strncpy` each present field with its buffer limit (`sizeof - 1`). -/
def parse_credential_json : CredPayload → Option ParsedCred
  | CredPayload.badJson => none
  | CredPayload.noCredField => none
  | CredPayload.badInner => none
  | CredPayload.ok fs => some
    { id := stringTake (fs.id.getD "") 127,
      iss := stringTake (fs.iss.getD "") 127,
      sub := stringTake (fs.sub.getD "") 127,
      dev := stringTake (fs.dev.getD "") 127,
      typ := stringTake (fs.typ.getD "") 63,
      iat := fs.iat.getD 0,
      exp := fs.exp.getD 0,
      own := stringTake (fs.own.getD "") 31,
      prm := stringTake (fs.prm.getD "") 255,
      prf := stringTake (fs.prf.getD "") 511,
      mac := stringTake (fs.mac.getD "") 17,
      is_valid := fs.is_valid.getD false }

/-- Embedding of `has_owner` from esp32-credential-handler.c:
`has_owner_flag && strlen(current_owner) > 0`. -/
def has_owner (st : CredHandlerState) : Bool :=
  st.has_owner_flag && st.current_owner.length ≠ 0

/-- Embedding of `validate_credential`: the credential must target this
device, be marked valid, be unexpired (when `exp > 0`), and carry
ownership type `owner` or `admin`.  No issuer length check is made. -/
def validate_credential (cred : ParsedCred) (device_id : String) (now : Int) : Bool :=
  (cred.dev = device_id : Bool) && cred.is_valid &&
  (if 0 < cred.exp then (now ≤ cred.exp : Bool) else true) &&
  ((cred.own = ownerStr : Bool) || (cred.own = adminStr : Bool))

/-- Embedding of `store_credential`: only `owner` credentials are stored;
the `owner` key and the `cred_<id>` blob are staged and reach the
durable store on a successful `nvs_commit`; the in-memory
`current_owner`/`has_owner_flag` globals are updated strictly after the
commit succeeded.  Returns the C `esp_err_t` as a success Bool. -/
def store_credential (cred : ParsedCred) (st : CredHandlerState) (f : CredFaults) :
    Bool × CredHandlerState :=
  if ¬ f.handleOk then (false, st)
  else if cred.own = ownerStr then
    if ¬ f.setOwnerOk then (false, st)
    else if ¬ f.setCredOk then (false, st)
    else if ¬ f.commitOk then (false, st)
    else
      (true,
       { current_owner := stringTake cred.sub 127,
         has_owner_flag := true,
         nvs_owner := some cred.sub,
         nvs_creds := (credKey cred.id, storedOf cred) :: st.nvs_creds })
  else (true, st)

/-- Outcome of one `handle_credential_service` call. -/
inductive CredServiceResult where
  | parseFail
  | rejectedOwned
  | invalidCred
  | storeFail
  | accepted
deriving DecidableEq, Repr

/-- Embedding of `handle_credential_service`: parse the credential, reject
when an owner exists and the candidate's **subject** differs from it,
validate, store, and acknowledge. -/
def handle_credential_service (p : CredPayload) (device_id : String) (now : Int)
    (st : CredHandlerState) (f : CredFaults) :
    CredServiceResult × CredHandlerState :=
  match parse_credential_json p with
  | none => (CredServiceResult.parseFail, st)
  | some cred =>
    if has_owner st ∧ st.current_owner ≠ cred.sub then
      (CredServiceResult.rejectedOwned, st)
    else if ¬ validate_credential cred device_id now then
      (CredServiceResult.invalidCred, st)
    else
      let stored := store_credential cred st f
      if stored.1 then (CredServiceResult.accepted, stored.2)
      else (CredServiceResult.storeFail, stored.2)

/-- A concrete credential id for the evaluation theorems. -/
def idC : String := "cred-1"

/-- A one-character (non-canonical) issuer for the evaluation theorems. -/
def issX : String := "x"

/-- A concrete subject identity for the evaluation theorems. -/
def subS : String := "subject-1"

/-- A second one-character issuer, different from `issX`. -/
def issY : String := "y"

/-- A concrete device id for the evaluation theorems. -/
def devD : String := "esp32-device-1"

end CredService

namespace Removal

/-- Journal action string for the start of a removal. -/
def removalStartedStr : String := "ownership_removal_started"

/-- Journal action string for a completed removal. -/
def removalRemovedStr : String := "ownership_removed"

/-- A parsed `ownership_remove` JSON message (string fields only;
`none` = field missing or not a string). -/
structure RemovalMsg where
  deviceId : Option String
  senderPersonId : Option String
deriving DecidableEq, Repr

/-- State touched by `handle_ownership_removal`: the durable `owner_id` and
`device_vc` NVS keys (the `OwnershipRecord`), the rotating journal
(reduced to (action, actor) pairs — no claim depends on entry contents),
and the runtime globals `device_owned`, `owner_person_id`,
`stored_credential`. -/
structure RemovalState where
  nvs_owner_id : Option String
  nvs_device_vc : Option String
  journal : List (String × String)
  journal_idx : Nat
  device_owned : Bool
  owner_person_id : String
  stored_credential : Option String
deriving DecidableEq, Repr

/-- Fault-injection flags for the erase/commit calls (whose failures the C
code only logs, continuing either way). -/
structure RemovalFaults where
  eraseVcOk : Bool
  eraseOwnerOk : Bool
  commitOk : Bool
deriving DecidableEq, Repr

/-- Embedding of the `nvs_get_str(nvs_handle, "owner_id", buf[65], ...)`
read: fails (treated as "no owner") when the key is absent or the stored
string does not fit the 64-character buffer. -/
def nvs_get_owner (st : RemovalState) : Option String :=
  match st.nvs_owner_id with
  | none => none
  | some o => if 64 < o.length then none else some o

/-- Embedding of `create_device_journal_entry` + `store_journal_entry`
(entry contents reduced to the action/actor pair). -/
def create_device_journal_entry (action actor : String) (st : RemovalState) :
    RemovalState :=
  { st with journal := st.journal ++ [(action, actor)],
            journal_idx := st.journal_idx + 1 }

/-- Outcome of one `handle_ownership_removal` call. -/
inductive RemovalResult where
  | noDeviceId
  | wrongDevice
  | noSender
  | noOwner
  | notOwner
  | removed
deriving DecidableEq, Repr

/-- Embedding of `handle_ownership_removal` from
esp32-ownership-removal-handler.c: validate the target device id and
the presence of a sender id, load the stored owner (absent/oversized/empty
⇒ ignore), require the sender to equal the stored owner byte-for-byte
(`strcmp == 0`), and only then journal, erase the ownership keys, clear
the runtime state and commit (erase/commit errors are logged only). -/
def handle_ownership_removal (msg : RemovalMsg) (device_id : String)
    (st : RemovalState) (f : RemovalFaults) : RemovalResult × RemovalState :=
  match msg.deviceId with
  | none => (RemovalResult.noDeviceId, st)
  | some d =>
    if d ≠ device_id then (RemovalResult.wrongDevice, st)
    else
      match msg.senderPersonId with
      | none => (RemovalResult.noSender, st)
      | some sender =>
        match nvs_get_owner st with
        | none => (RemovalResult.noOwner, st)
        | some owner =>
          if owner.length = 0 then (RemovalResult.noOwner, st)
          else if sender ≠ owner then (RemovalResult.notOwner, st)
          else
            let st1 := create_device_journal_entry removalStartedStr sender st
            let st2 := if f.eraseVcOk then { st1 with nvs_device_vc := none } else st1
            let st3 := if f.eraseOwnerOk then { st2 with nvs_owner_id := none } else st2
            let st4 := { st3 with device_owned := false, owner_person_id := "",
                                  stored_credential := none }
            let st5 := create_device_journal_entry removalRemovedStr sender st4
            (RemovalResult.removed, st5)

/-- A concrete non-owner sender for the evaluation theorems. -/
def senderX : String := "intruder"

/-- A concrete stored credential blob for the evaluation theorems. -/
def vcBlobA : String := "stored-vc"

end Removal

/-! ## Helper lemmas: bit arithmetic -/

theorem lor_eq_add_of_dvd (x y n : Nat) (hx : 2 ^ n ∣ x) (hy : y < 2 ^ n) :
    x ||| y = x + y := by
  obtain ⟨a, ha⟩ := hx
  subst ha
  apply Nat.eq_of_testBit_eq
  intro j
  rw [Nat.testBit_or, Nat.testBit_mul_pow_two_add a hy j]
  have hz : 2 ^ n * a = 2 ^ n * a + 0 := by ring
  by_cases h : j < n
  · have h0 : (2 ^ n * a).testBit j = false := by
      rw [hz, Nat.testBit_mul_pow_two_add a (Nat.two_pow_pos n) j]
      simp [h]
    simp [h, h0]
  · have hyf : y.testBit j = false :=
      Nat.testBit_lt_two_pow
        (lt_of_lt_of_le hy (Nat.pow_le_pow_right (by norm_num) (Nat.le_of_not_lt h)))
    have h1 : (2 ^ n * a).testBit j = a.testBit (j - n) := by
      rw [hz, Nat.testBit_mul_pow_two_add a (Nat.two_pow_pos n) j]
      simp [h]
    simp [h, h1, hyf]

theorem and63_eq_mod (x : Nat) : x &&& 63 = x % 64 := by
  have := Nat.and_pow_two_sub_one_eq_mod x 6
  norm_num at this
  exact this

theorem and255_eq_mod (x : Nat) : x &&& 255 = x % 256 := by
  have := Nat.and_pow_two_sub_one_eq_mod x 8
  norm_num at this
  exact this

theorem shr_eq_div (x n : Nat) : x >>> n = x / 2 ^ n := Nat.shiftRight_eq_div_pow x n

theorem byte_extract (v k : Nat) : (v >>> k) &&& 255 = v / 2 ^ k % 256 := by
  rw [shr_eq_div, and255_eq_mod]

namespace Wire

/-! ## Varint codec lemmas -/

theorem decode_encode_one (v : Nat) (h2 : v ≤ 63) (room : Nat) (hr : 1 ≤ room)
    (suffix : List Nat) :
    quicvc_decode_varint (quicvc_encode_varint v room ++ suffix) = ⟨v, 1⟩ := by
  have henc : quicvc_encode_varint v room = [v] := by
    unfold quicvc_encode_varint QUICVC_VARINT_1_BYTE_MAX
    rw [if_pos (by omega), if_neg (by omega)]
  rw [henc]
  unfold quicvc_decode_varint
  simp only [List.cons_append, List.length_cons, List.getD_cons_zero]
  rw [if_neg (by simp)]
  have hpfx : v >>> 6 = 0 := by rw [shr_eq_div]; norm_num; omega
  rw [hpfx]
  have hv : v &&& 63 = v := by rw [and63_eq_mod]; omega
  norm_num [hv]

theorem decode_encode_two (v : Nat) (h1 : 63 < v) (h2 : v ≤ 16383)
    (room : Nat) (hr : 2 ≤ room) (suffix : List Nat) :
    quicvc_decode_varint (quicvc_encode_varint v room ++ suffix) = ⟨v, 2⟩ := by
  have henc : quicvc_encode_varint v room =
      [0x40 ||| ((v >>> 8) &&& 0x3F), v &&& 0xFF] := by
    unfold quicvc_encode_varint QUICVC_VARINT_1_BYTE_MAX QUICVC_VARINT_2_BYTE_MAX
    rw [if_neg (by omega), if_pos (by omega), if_neg (by omega)]
  have hx : (v >>> 8) &&& 0x3F = v / 256 := by
    rw [shr_eq_div, and63_eq_mod]
    norm_num
    omega
  have hfirst : (0x40 : Nat) ||| (v / 256) = 64 + v / 256 :=
    lor_eq_add_of_dvd 64 (v / 256) 6 (by norm_num) (by omega)
  rw [henc, hx, hfirst]
  unfold quicvc_decode_varint
  simp only [List.cons_append, List.length_cons, List.getD_cons_zero, List.getD_cons_succ]
  rw [if_neg (by simp)]
  have hpfx : (64 + v / 256) >>> 6 = 1 := by rw [shr_eq_div]; norm_num; omega
  have hand : (64 + v / 256) &&& 63 = v / 256 := by rw [and63_eq_mod]; omega
  have hjoin : (v / 256) <<< 8 ||| v &&& 255 = v := by
    rw [and255_eq_mod, Nat.shiftLeft_eq,
      lor_eq_add_of_dvd (v / 256 * 2 ^ 8) (v % 256) 8 (Dvd.intro _ (by ring)) (by omega)]
    omega
  rw [hpfx, hand, hjoin]
  norm_num

theorem decode_encode_four (v : Nat) (h1 : 16383 < v) (h2 : v ≤ 1073741823)
    (room : Nat) (hr : 4 ≤ room) (suffix : List Nat) :
    quicvc_decode_varint (quicvc_encode_varint v room ++ suffix) = ⟨v, 4⟩ := by
  have henc : quicvc_encode_varint v room =
      [0x80 ||| ((v >>> 24) &&& 0x3F), (v >>> 16) &&& 0xFF,
       (v >>> 8) &&& 0xFF, v &&& 0xFF] := by
    unfold quicvc_encode_varint QUICVC_VARINT_1_BYTE_MAX QUICVC_VARINT_2_BYTE_MAX
      QUICVC_VARINT_4_BYTE_MAX
    rw [if_neg (by omega), if_neg (by omega), if_pos (by omega), if_neg (by omega)]
  have hx : (v >>> 24) &&& 0x3F = v / 2 ^ 24 := by
    rw [shr_eq_div, and63_eq_mod]
    have : v / 2 ^ 24 < 64 := by omega
    omega
  have hfirst : (0x80 : Nat) ||| (v / 2 ^ 24) = 128 + v / 2 ^ 24 :=
    lor_eq_add_of_dvd 128 (v / 2 ^ 24) 7 (by norm_num) (by omega)
  rw [henc, hx, hfirst, byte_extract v 16, byte_extract v 8, and255_eq_mod]
  unfold quicvc_decode_varint
  simp only [List.cons_append, List.length_cons, List.getD_cons_zero, List.getD_cons_succ]
  rw [if_neg (by simp)]
  have hpfx : (128 + v / 2 ^ 24) >>> 6 = 2 := by rw [shr_eq_div]; norm_num; omega
  have hand : (128 + v / 2 ^ 24) &&& 63 = v / 2 ^ 24 := by rw [and63_eq_mod]; omega
  have hjoin : (v / 2 ^ 24) <<< 24 ||| (v / 2 ^ 16 % 256) <<< 16 |||
      (v / 2 ^ 8 % 256) <<< 8 ||| v % 256 = v := by
    simp only [Nat.shiftLeft_eq]
    rw [lor_eq_add_of_dvd (v / 2 ^ 24 * 2 ^ 24) (v / 2 ^ 16 % 256 * 2 ^ 16) 24
        ⟨v / 2 ^ 24, by ring⟩ (by omega)]
    rw [lor_eq_add_of_dvd (v / 2 ^ 24 * 2 ^ 24 + v / 2 ^ 16 % 256 * 2 ^ 16)
        (v / 2 ^ 8 % 256 * 2 ^ 8) 16 ⟨v / 2 ^ 24 * 2 ^ 8 + v / 2 ^ 16 % 256, by ring⟩
        (by omega)]
    rw [lor_eq_add_of_dvd
        (v / 2 ^ 24 * 2 ^ 24 + v / 2 ^ 16 % 256 * 2 ^ 16 + v / 2 ^ 8 % 256 * 2 ^ 8)
        (v % 256) 8 ⟨v / 2 ^ 24 * 2 ^ 16 + v / 2 ^ 16 % 256 * 2 ^ 8 + v / 2 ^ 8 % 256, by ring⟩
        (by omega)]
    omega
  rw [hpfx, hand, hjoin]
  norm_num

theorem decode_encode_eight (v : Nat) (h1 : 1073741823 < v) (h2 : v < 2 ^ 62)
    (room : Nat) (hr : 8 ≤ room) (suffix : List Nat) :
    quicvc_decode_varint (quicvc_encode_varint v room ++ suffix) = ⟨v, 8⟩ := by
  have henc : quicvc_encode_varint v room =
      [0xC0 ||| ((v >>> 56) &&& 0x3F), (v >>> 48) &&& 0xFF, (v >>> 40) &&& 0xFF,
       (v >>> 32) &&& 0xFF, (v >>> 24) &&& 0xFF, (v >>> 16) &&& 0xFF,
       (v >>> 8) &&& 0xFF, v &&& 0xFF] := by
    unfold quicvc_encode_varint QUICVC_VARINT_1_BYTE_MAX QUICVC_VARINT_2_BYTE_MAX
      QUICVC_VARINT_4_BYTE_MAX
    rw [if_neg (by omega), if_neg (by omega), if_neg (by omega), if_neg (by omega)]
  have hx : (v >>> 56) &&& 0x3F = v / 2 ^ 56 := by
    rw [shr_eq_div, and63_eq_mod]
    have : v / 2 ^ 56 < 64 := by omega
    omega
  have hfirst : (0xC0 : Nat) ||| (v / 2 ^ 56) = 192 + v / 2 ^ 56 :=
    lor_eq_add_of_dvd 192 (v / 2 ^ 56) 6 (by norm_num) (by omega)
  rw [henc, hx, hfirst, byte_extract v 48, byte_extract v 40, byte_extract v 32,
    byte_extract v 24, byte_extract v 16, byte_extract v 8, and255_eq_mod]
  unfold quicvc_decode_varint
  simp only [List.cons_append, List.length_cons, List.getD_cons_zero, List.getD_cons_succ]
  rw [if_neg (by simp)]
  have hpfx : (192 + v / 2 ^ 56) >>> 6 = 3 := by rw [shr_eq_div]; norm_num; omega
  have hand : (192 + v / 2 ^ 56) &&& 63 = v / 2 ^ 56 := by rw [and63_eq_mod]; omega
  have hjoin : (v / 2 ^ 56) <<< 56 ||| (v / 2 ^ 48 % 256) <<< 48 |||
      (v / 2 ^ 40 % 256) <<< 40 ||| (v / 2 ^ 32 % 256) <<< 32 |||
      (v / 2 ^ 24 % 256) <<< 24 ||| (v / 2 ^ 16 % 256) <<< 16 |||
      (v / 2 ^ 8 % 256) <<< 8 ||| v % 256 = v := by
    simp only [Nat.shiftLeft_eq]
    rw [lor_eq_add_of_dvd (v / 2 ^ 56 * 2 ^ 56) (v / 2 ^ 48 % 256 * 2 ^ 48) 56
        ⟨v / 2 ^ 56, by ring⟩ (by omega)]
    rw [lor_eq_add_of_dvd (v / 2 ^ 56 * 2 ^ 56 + v / 2 ^ 48 % 256 * 2 ^ 48)
        (v / 2 ^ 40 % 256 * 2 ^ 40) 48
        ⟨v / 2 ^ 56 * 2 ^ 8 + v / 2 ^ 48 % 256, by ring⟩ (by omega)]
    rw [lor_eq_add_of_dvd
        (v / 2 ^ 56 * 2 ^ 56 + v / 2 ^ 48 % 256 * 2 ^ 48 + v / 2 ^ 40 % 256 * 2 ^ 40)
        (v / 2 ^ 32 % 256 * 2 ^ 32) 40
        ⟨v / 2 ^ 56 * 2 ^ 16 + v / 2 ^ 48 % 256 * 2 ^ 8 + v / 2 ^ 40 % 256, by ring⟩
        (by omega)]
    rw [lor_eq_add_of_dvd
        (v / 2 ^ 56 * 2 ^ 56 + v / 2 ^ 48 % 256 * 2 ^ 48 + v / 2 ^ 40 % 256 * 2 ^ 40 +
          v / 2 ^ 32 % 256 * 2 ^ 32)
        (v / 2 ^ 24 % 256 * 2 ^ 24) 32
        ⟨v / 2 ^ 56 * 2 ^ 24 + v / 2 ^ 48 % 256 * 2 ^ 16 + v / 2 ^ 40 % 256 * 2 ^ 8 +
          v / 2 ^ 32 % 256, by ring⟩ (by omega)]
    rw [lor_eq_add_of_dvd
        (v / 2 ^ 56 * 2 ^ 56 + v / 2 ^ 48 % 256 * 2 ^ 48 + v / 2 ^ 40 % 256 * 2 ^ 40 +
          v / 2 ^ 32 % 256 * 2 ^ 32 + v / 2 ^ 24 % 256 * 2 ^ 24)
        (v / 2 ^ 16 % 256 * 2 ^ 16) 24
        ⟨v / 2 ^ 56 * 2 ^ 32 + v / 2 ^ 48 % 256 * 2 ^ 24 + v / 2 ^ 40 % 256 * 2 ^ 16 +
          v / 2 ^ 32 % 256 * 2 ^ 8 + v / 2 ^ 24 % 256, by ring⟩ (by omega)]
    rw [lor_eq_add_of_dvd
        (v / 2 ^ 56 * 2 ^ 56 + v / 2 ^ 48 % 256 * 2 ^ 48 + v / 2 ^ 40 % 256 * 2 ^ 40 +
          v / 2 ^ 32 % 256 * 2 ^ 32 + v / 2 ^ 24 % 256 * 2 ^ 24 + v / 2 ^ 16 % 256 * 2 ^ 16)
        (v / 2 ^ 8 % 256 * 2 ^ 8) 16
        ⟨v / 2 ^ 56 * 2 ^ 40 + v / 2 ^ 48 % 256 * 2 ^ 32 + v / 2 ^ 40 % 256 * 2 ^ 24 +
          v / 2 ^ 32 % 256 * 2 ^ 16 + v / 2 ^ 24 % 256 * 2 ^ 8 + v / 2 ^ 16 % 256, by ring⟩
        (by omega)]
    rw [lor_eq_add_of_dvd
        (v / 2 ^ 56 * 2 ^ 56 + v / 2 ^ 48 % 256 * 2 ^ 48 + v / 2 ^ 40 % 256 * 2 ^ 40 +
          v / 2 ^ 32 % 256 * 2 ^ 32 + v / 2 ^ 24 % 256 * 2 ^ 24 + v / 2 ^ 16 % 256 * 2 ^ 16 +
          v / 2 ^ 8 % 256 * 2 ^ 8)
        (v % 256) 8
        ⟨v / 2 ^ 56 * 2 ^ 48 + v / 2 ^ 48 % 256 * 2 ^ 40 + v / 2 ^ 40 % 256 * 2 ^ 32 +
          v / 2 ^ 32 % 256 * 2 ^ 24 + v / 2 ^ 24 % 256 * 2 ^ 16 + v / 2 ^ 16 % 256 * 2 ^ 8 +
          v / 2 ^ 8 % 256, by ring⟩ (by omega)]
    omega
  rw [hpfx, hand, hjoin]
  norm_num

/-- Roundtrip of the varint codec for values in the representable range,
with an arbitrary suffix after the encoded bytes. -/
theorem decode_encode_append (v room : Nat) (suffix : List Nat) (hv : v < 2 ^ 62)
    (hr : quicvc_get_varint_size v ≤ room) :
    quicvc_decode_varint (quicvc_encode_varint v room ++ suffix) =
      ⟨v, quicvc_get_varint_size v⟩ := by
  unfold quicvc_get_varint_size QUICVC_VARINT_1_BYTE_MAX QUICVC_VARINT_2_BYTE_MAX
    QUICVC_VARINT_4_BYTE_MAX at hr ⊢
  by_cases c1 : v ≤ 63
  · rw [if_pos c1] at hr ⊢
    exact decode_encode_one v c1 room hr suffix
  · rw [if_neg c1] at hr ⊢
    by_cases c2 : v ≤ 16383
    · rw [if_pos c2] at hr ⊢
      exact decode_encode_two v (by omega) c2 room hr suffix
    · rw [if_neg c2] at hr ⊢
      by_cases c3 : v ≤ 1073741823
      · rw [if_pos c3] at hr ⊢
        exact decode_encode_four v (by omega) c3 room hr suffix
      · rw [if_neg c3] at hr ⊢
        exact decode_encode_eight v (by omega) hv room hr suffix

/-- A successful encode writes exactly `quicvc_get_varint_size` bytes. -/
theorem encode_length (v room : Nat) (hr : quicvc_get_varint_size v ≤ room) :
    (quicvc_encode_varint v room).length = quicvc_get_varint_size v := by
  unfold quicvc_get_varint_size QUICVC_VARINT_1_BYTE_MAX
    QUICVC_VARINT_2_BYTE_MAX QUICVC_VARINT_4_BYTE_MAX at hr
  unfold quicvc_encode_varint quicvc_get_varint_size QUICVC_VARINT_1_BYTE_MAX
    QUICVC_VARINT_2_BYTE_MAX QUICVC_VARINT_4_BYTE_MAX
  by_cases c1 : v ≤ 63
  · simp only [if_pos c1] at hr ⊢
    rw [if_neg (by omega)]
    rfl
  · simp only [if_neg c1] at hr ⊢
    by_cases c2 : v ≤ 16383
    · simp only [if_pos c2] at hr ⊢
      rw [if_neg (by omega)]
      rfl
    · simp only [if_neg c2] at hr ⊢
      by_cases c3 : v ≤ 1073741823
      · simp only [if_pos c3] at hr ⊢
        rw [if_neg (by omega)]
        rfl
      · simp only [if_neg c3] at hr ⊢
        rw [if_neg (by omega)]
        rfl

/-- The bytes a successful encode writes do not depend on the buffer room. -/
theorem encode_room_irrelevant (v room : Nat) (hr : quicvc_get_varint_size v ≤ room) :
    quicvc_encode_varint v room = encB v := by
  unfold quicvc_get_varint_size QUICVC_VARINT_1_BYTE_MAX
    QUICVC_VARINT_2_BYTE_MAX QUICVC_VARINT_4_BYTE_MAX at hr
  unfold encB quicvc_encode_varint QUICVC_VARINT_1_BYTE_MAX
    QUICVC_VARINT_2_BYTE_MAX QUICVC_VARINT_4_BYTE_MAX
  by_cases c1 : v ≤ 63
  · simp only [if_pos c1] at hr ⊢
    rw [if_neg (by omega), if_neg (by omega)]
  · simp only [if_neg c1] at hr ⊢
    by_cases c2 : v ≤ 16383
    · simp only [if_pos c2] at hr ⊢
      rw [if_neg (by omega), if_neg (by omega)]
    · simp only [if_neg c2] at hr ⊢
      by_cases c3 : v ≤ 1073741823
      · simp only [if_pos c3] at hr ⊢
        rw [if_neg (by omega), if_neg (by omega)]
      · simp only [if_neg c3] at hr ⊢
        rw [if_neg (by omega), if_neg (by omega)]

end Wire

namespace Wire

theorem size_le_eight (v : Nat) : quicvc_get_varint_size v ≤ 8 := by
  unfold quicvc_get_varint_size
  split
  · omega
  · split
    · omega
    · split <;> omega

theorem size_pos (v : Nat) : 1 ≤ quicvc_get_varint_size v := by
  unfold quicvc_get_varint_size
  split
  · omega
  · split
    · omega
    · split <;> omega

theorem encB_length (v : Nat) : (encB v).length = quicvc_get_varint_size v :=
  encode_length v 8 (size_le_eight v)

theorem encB_len_pos (v : Nat) : 1 ≤ (encB v).length := by
  rw [encB_length]
  exact size_pos v

theorem decode_encB (v : Nat) (suffix : List Nat) (hv : v < 2 ^ 62) :
    quicvc_decode_varint (encB v ++ suffix) = ⟨v, (encB v).length⟩ := by
  rw [encB_length]
  exact decode_encode_append v 8 suffix hv (size_le_eight v)

theorem ftByte_spec (fin len off : Bool) :
    ftByte fin len off &&& 0xF8 = QUICVC_FRAME_STREAM ∧
    decide (ftByte fin len off &&& QUICVC_STREAM_FIN_BIT ≠ 0) = fin ∧
    decide (ftByte fin len off &&& QUICVC_STREAM_LEN_BIT ≠ 0) = len ∧
    decide (ftByte fin len off &&& QUICVC_STREAM_OFF_BIT ≠ 0) = off := by
  rcases fin <;> rcases len <;> rcases off <;> exact ⟨by decide, by decide, by decide, by decide⟩

end Wire

namespace Wire

/-- On a well-formed frame with enough buffer room, serialization succeeds
and writes exactly `serializedStreamFrame`. -/
theorem serialize_eq (f : StreamFrame) (out_size : Nat)
    (hdl : f.data_len = f.data.length)
    (hroom : 1 + (encB f.stream_id).length +
      (if f.has_off then (encB f.offset).length else 0) +
      (if f.has_len then (encB f.data_len).length else 0) + f.data_len ≤ out_size) :
    quicvc_serialize_stream_frame f out_size = some (serializedStreamFrame f) := by
  obtain ⟨ft, sid, off, len, dat, dlen, bfin, blen, boff⟩ := f
  dsimp only at hdl hroom ⊢
  have hsp := encB_len_pos sid
  have hsl := encB_length sid
  have hop := encB_len_pos off
  have hol := encB_length off
  have hlp := encB_len_pos dlen
  have hll := encB_length dlen
  rcases boff <;> rcases blen <;>
    simp only [Bool.false_eq_true, if_false, if_true, Nat.add_zero] at hroom ⊢ <;>
    unfold quicvc_serialize_stream_frame serializedStreamFrame <;>
    dsimp only <;>
    rw [if_neg (by omega), encode_room_irrelevant sid (out_size - 1)
      (by omega)]
  · -- has_off = false, has_len = false
    simp only [Bool.false_eq_true, if_false, false_and, List.append_nil, List.length_nil,
      Nat.add_zero]
    rw [if_neg (by omega)]
    by_cases hdat : dat = []
    · subst hdat
      simp at hdl
      simp [hdl]
    · rw [if_pos ⟨hdat, by have := List.length_pos.mpr hdat; omega⟩]
      rw [if_neg (by omega)]
      rw [hdl, List.take_length]
  · -- has_off = false, has_len = true
    simp only [Bool.false_eq_true, if_false, false_and, if_true, true_and,
      List.append_nil, List.length_nil, Nat.add_zero]
    rw [if_neg (by omega)]
    rw [encode_room_irrelevant dlen (out_size - (1 + (encB sid).length))
      (by omega)]
    rw [if_neg (by omega)]
    by_cases hdat : dat = []
    · subst hdat
      simp at hdl
      simp [hdl]
    · rw [if_pos ⟨hdat, by have := List.length_pos.mpr hdat; omega⟩]
      rw [if_neg (by omega)]
      rw [hdl, List.take_length]
  · -- has_off = true, has_len = false
    simp only [if_true, true_and, Bool.false_eq_true, if_false, false_and,
      List.append_nil, List.length_nil, Nat.add_zero]
    rw [if_neg (by omega)]
    rw [encode_room_irrelevant off (out_size - (1 + (encB sid).length))
      (by omega)]
    rw [if_neg (by omega)]
    by_cases hdat : dat = []
    · subst hdat
      simp at hdl
      simp [hdl]
    · rw [if_pos ⟨hdat, by have := List.length_pos.mpr hdat; omega⟩]
      rw [if_neg (by omega)]
      rw [hdl, List.take_length]
  · -- has_off = true, has_len = true
    simp only [if_true, true_and]
    rw [if_neg (by omega)]
    rw [encode_room_irrelevant off (out_size - (1 + (encB sid).length))
      (by omega)]
    rw [if_neg (by omega)]
    rw [encode_room_irrelevant dlen (out_size - (1 + (encB sid).length + (encB off).length))
      (by omega)]
    rw [if_neg (by omega)]
    by_cases hdat : dat = []
    · subst hdat
      simp at hdl
      simp [hdl]
    · rw [if_pos ⟨hdat, by have := List.length_pos.mpr hdat; omega⟩]
      rw [if_neg (by omega)]
      rw [hdl, List.take_length]

end Wire


namespace Wire

/-- Parsing the bytes written by a successful serialization reproduces the
frame and consumes the whole buffer. -/
theorem parse_serialized (f : StreamFrame)
    (hdl : f.data_len = f.data.length)
    (hlen : f.length = f.data_len)
    (hoff0 : f.has_off = false → f.offset = 0)
    (hsid : f.stream_id < 2 ^ 62) (hofflt : f.offset < 2 ^ 62)
    (hdlt : f.data_len < 2 ^ 62) :
    quicvc_parse_stream_frame (serializedStreamFrame f) =
      ⟨{ f with frame_type := ftByte f.has_fin f.has_len f.has_off },
       (serializedStreamFrame f).length⟩ := by
  obtain ⟨ft, sid, off, len, dat, dlen, bfin, blen, boff⟩ := f
  dsimp only at hdl hlen hoff0 hsid hofflt hdlt ⊢
  subst hlen
  subst hdl
  have hsp := encB_len_pos sid
  rcases boff
  · rcases blen
    · -- off = false, len = false
      have hoffz : off = 0 := hoff0 rfl
      subst hoffz
      unfold serializedStreamFrame
      dsimp only
      simp only [Bool.false_eq_true, if_false, List.append_nil]
      unfold quicvc_parse_stream_frame
      rw [if_neg (by simp only [List.length_cons, List.length_append]; omega)]
      simp only [List.getD_cons_zero]
      rw [if_neg (by simp [(ftByte_spec bfin false false).1])]
      rw [show (ftByte bfin false false :: (encB sid ++ dat)).drop 1 = encB sid ++ dat from rfl]
      rw [decode_encB sid dat hsid]
      have hspec := ftByte_spec bfin false false
      dsimp only
      simp only [hspec.2.1, hspec.2.2.1, hspec.2.2.2, Bool.false_eq_true, false_and,
        if_false, List.length_cons, List.length_append]
      rw [if_neg (by omega)]
      have e1 : (encB sid).length + dat.length + 1 - (1 + (encB sid).length) = dat.length := by
        omega
      rw [e1]
      rw [if_neg (by omega)]
      have e2 : List.drop (1 + (encB sid).length)
          (ftByte bfin false false :: (encB sid ++ dat)) = dat := by
        rw [Nat.add_comm 1 (encB sid).length, List.drop_succ_cons]
        exact List.drop_left _ _
      rw [e2, List.take_length]
      have e3 : 1 + (encB sid).length + dat.length = (encB sid).length + dat.length + 1 := by
        omega
      rw [e3]
    · -- off = false, len = true
      have hoffz : off = 0 := hoff0 rfl
      subst hoffz
      have hlp := encB_len_pos dat.length
      unfold serializedStreamFrame
      dsimp only
      simp only [Bool.false_eq_true, if_false, if_true, List.append_nil]
      unfold quicvc_parse_stream_frame
      rw [if_neg (by simp only [List.length_cons, List.length_append]; omega)]
      simp only [List.getD_cons_zero]
      rw [if_neg (by simp [(ftByte_spec bfin true false).1])]
      rw [List.append_assoc]
      rw [show (ftByte bfin true false :: (encB sid ++ (encB dat.length ++ dat))).drop 1 =
        encB sid ++ (encB dat.length ++ dat) from rfl]
      rw [decode_encB sid _ hsid]
      have hspec := ftByte_spec bfin true false
      dsimp only
      simp only [hspec.2.1, hspec.2.2.1, hspec.2.2.2, Bool.false_eq_true, false_and,
        if_false, eq_self_iff_true, true_and, ite_true, List.length_cons, List.length_append]
      rw [if_neg (by omega)]
      have e2 : List.drop (1 + (encB sid).length)
          (ftByte bfin true false :: (encB sid ++ (encB dat.length ++ dat))) =
          encB dat.length ++ dat := by
        rw [Nat.add_comm 1 (encB sid).length, List.drop_succ_cons]
        exact List.drop_left _ _
      rw [e2, decode_encB dat.length dat hdlt]
      dsimp only
      rw [if_neg (by omega)]
      rw [if_neg (by omega)]
      have e4 : List.drop (1 + (encB sid).length + (encB dat.length).length)
          (ftByte bfin true false :: (encB sid ++ (encB dat.length ++ dat))) = dat := by
        rw [Nat.add_comm 1 (encB sid).length, Nat.add_right_comm, List.drop_succ_cons]
        rw [← List.drop_drop, List.drop_left]
        exact List.drop_left _ _
      rw [e4, List.take_length]
      have e5 : 1 + (encB sid).length + (encB dat.length).length + dat.length =
          (encB sid).length + ((encB dat.length).length + dat.length) + 1 := by omega
      rw [e5]
  · rcases blen
    · -- off = true, len = false
      have hop := encB_len_pos off
      unfold serializedStreamFrame
      dsimp only
      simp only [Bool.false_eq_true, if_false, if_true, List.append_nil]
      unfold quicvc_parse_stream_frame
      rw [if_neg (by simp only [List.length_cons, List.length_append]; omega)]
      simp only [List.getD_cons_zero]
      rw [if_neg (by simp [(ftByte_spec bfin false true).1])]
      rw [List.append_assoc]
      rw [show (ftByte bfin false true :: (encB sid ++ (encB off ++ dat))).drop 1 =
        encB sid ++ (encB off ++ dat) from rfl]
      rw [decode_encB sid _ hsid]
      have hspec := ftByte_spec bfin false true
      dsimp only
      simp only [hspec.2.1, hspec.2.2.1, hspec.2.2.2, Bool.false_eq_true, false_and,
        if_false, eq_self_iff_true, true_and, ite_true, List.length_cons, List.length_append]
      rw [if_neg (by omega)]
      have e2 : List.drop (1 + (encB sid).length)
          (ftByte bfin false true :: (encB sid ++ (encB off ++ dat))) =
          encB off ++ dat := by
        rw [Nat.add_comm 1 (encB sid).length, List.drop_succ_cons]
        exact List.drop_left _ _
      rw [e2, decode_encB off dat hofflt]
      dsimp only
      rw [if_neg (by omega)]
      have e1 : (encB sid).length + ((encB off).length + dat.length) + 1 -
          (1 + (encB sid).length + (encB off).length) = dat.length := by omega
      rw [e1]
      rw [if_neg (by omega)]
      have e4 : List.drop (1 + (encB sid).length + (encB off).length)
          (ftByte bfin false true :: (encB sid ++ (encB off ++ dat))) = dat := by
        rw [Nat.add_comm 1 (encB sid).length, Nat.add_right_comm, List.drop_succ_cons]
        rw [← List.drop_drop, List.drop_left]
        exact List.drop_left _ _
      rw [e4, List.take_length]
      have e5 : 1 + (encB sid).length + (encB off).length + dat.length =
          (encB sid).length + ((encB off).length + dat.length) + 1 := by omega
      rw [e5]
    · -- off = true, len = true
      have hop := encB_len_pos off
      have hlp := encB_len_pos dat.length
      unfold serializedStreamFrame
      dsimp only
      simp only [if_true]
      unfold quicvc_parse_stream_frame
      rw [if_neg (by simp only [List.length_cons, List.length_append]; omega)]
      simp only [List.getD_cons_zero]
      rw [if_neg (by simp [(ftByte_spec bfin true true).1])]
      rw [List.append_assoc, List.append_assoc]
      rw [show (ftByte bfin true true ::
        (encB sid ++ (encB off ++ (encB dat.length ++ dat)))).drop 1 =
        encB sid ++ (encB off ++ (encB dat.length ++ dat)) from rfl]
      rw [decode_encB sid _ hsid]
      have hspec := ftByte_spec bfin true true
      dsimp only
      simp only [hspec.2.1, hspec.2.2.1, hspec.2.2.2, eq_self_iff_true, true_and, ite_true,
        List.length_cons, List.length_append]
      rw [if_neg (by omega)]
      have e2 : List.drop (1 + (encB sid).length)
          (ftByte bfin true true :: (encB sid ++ (encB off ++ (encB dat.length ++ dat)))) =
          encB off ++ (encB dat.length ++ dat) := by
        rw [Nat.add_comm 1 (encB sid).length, List.drop_succ_cons]
        exact List.drop_left _ _
      rw [e2, decode_encB off _ hofflt]
      dsimp only
      rw [if_neg (by omega)]
      have e3 : List.drop (1 + (encB sid).length + (encB off).length)
          (ftByte bfin true true :: (encB sid ++ (encB off ++ (encB dat.length ++ dat)))) =
          encB dat.length ++ dat := by
        rw [Nat.add_comm 1 (encB sid).length, Nat.add_right_comm, List.drop_succ_cons]
        rw [← List.drop_drop, List.drop_left]
        exact List.drop_left _ _
      rw [e3, decode_encB dat.length dat hdlt]
      dsimp only
      rw [if_neg (by omega)]
      rw [if_neg (by omega)]
      have e4 : List.drop (1 + (encB sid).length + (encB off).length + (encB dat.length).length)
          (ftByte bfin true true :: (encB sid ++ (encB off ++ (encB dat.length ++ dat)))) =
          dat := by
        rw [← List.drop_drop, e3]
        exact List.drop_left _ _
      rw [e4, List.take_length]
      have e5 : 1 + (encB sid).length + (encB off).length + (encB dat.length).length +
          dat.length =
          (encB sid).length + ((encB off).length + ((encB dat.length).length + dat.length)) +
            1 := by omega
      rw [e5]

end Wire

namespace Wire

/-- C7, counterexample: the claim quantifies over every 64-bit value, but for
`v = 2^62` (a valid `uint64_t`) the encoder keeps only the low 62 bits
(`(value >> 56) & 0x3F`), so decoding its output yields 0, not `v`. -/
theorem quicvc_varint_roundtrip_drops_high_bits :
    4611686018427387904 < 2 ^ 64 ∧
    quicvc_decode_varint (quicvc_encode_varint 4611686018427387904 8) = ⟨0, 8⟩ ∧
    quicvc_decode_varint (quicvc_encode_varint 4611686018427387904 8) ≠
      ⟨4611686018427387904, 8⟩ := by
  refine ⟨by norm_num, by decide, by decide⟩

/-- C7 (amended): for every value below `2^62` (the varint-representable
range) and a buffer of at least 8 bytes, decoding the encoder's output
returns exactly the value together with the number of bytes written, and
that number is the minimal length class: 1 byte for `v ≤ 63`, 2 for
`v ≤ 16383`, 4 for `v ≤ 1073741823`, 8 otherwise.  For `v ≥ 2^62` the
encoder drops the two high bits, so the roundtrip fails there. -/
theorem quicvc_varint_roundtrip (v room : Nat) (hv : v < 2 ^ 62) (hr : 8 ≤ room) :
    quicvc_decode_varint (quicvc_encode_varint v room) =
      ⟨v, (quicvc_encode_varint v room).length⟩ ∧
    (quicvc_encode_varint v room).length =
      (if v ≤ 63 then 1 else if v ≤ 16383 then 2
       else if v ≤ 1073741823 then 4 else 8) := by
  have hsz : quicvc_get_varint_size v ≤ room := le_trans (size_le_eight v) hr
  constructor
  · have h := decode_encode_append v room [] hv hsz
    rw [List.append_nil] at h
    rw [h, encode_length v room hsz]
  · rw [encode_length v room hsz]
    unfold quicvc_get_varint_size QUICVC_VARINT_1_BYTE_MAX QUICVC_VARINT_2_BYTE_MAX
      QUICVC_VARINT_4_BYTE_MAX
    rfl

/-- Witness for the amended C7 theorem at `v = 70000` (4-byte class). -/
theorem quicvc_varint_roundtrip_witness :
    quicvc_decode_varint (quicvc_encode_varint 70000 8) = ⟨70000, 4⟩ ∧
    (quicvc_encode_varint 70000 8).length = 4 := by
  obtain ⟨h1, h2⟩ := quicvc_varint_roundtrip 70000 8 (by norm_num) (by norm_num)
  norm_num at h2
  rw [h2] at h1
  exact ⟨h1, h2⟩

/-- C8: serializing a well-formed stream frame (any FIN/LEN/OFF flag
combination, any payload fitting the buffer) and parsing the result
reproduces the flags, stream id, offset, length and payload bytes, and
consumes exactly the bytes serialization wrote.  Well-formedness is the C
struct contract: `data_len` is the payload length, `length` equals
`data_len`, `offset` is 0 when OFF is unset, and the varint-encoded
fields lie in the representable range. -/
theorem quicvc_stream_frame_roundtrip (f : StreamFrame) (out_size : Nat)
    (hdl : f.data_len = f.data.length)
    (hlen : f.length = f.data_len)
    (hoff0 : f.has_off = false → f.offset = 0)
    (hsid : f.stream_id < 2 ^ 62) (hofflt : f.offset < 2 ^ 62)
    (hdlt : f.data_len < 2 ^ 62)
    (hroom : 1 + (encB f.stream_id).length +
      (if f.has_off then (encB f.offset).length else 0) +
      (if f.has_len then (encB f.data_len).length else 0) + f.data_len ≤ out_size) :
    quicvc_serialize_stream_frame f out_size = some (serializedStreamFrame f) ∧
    quicvc_parse_stream_frame (serializedStreamFrame f) =
      ⟨{ f with frame_type := ftByte f.has_fin f.has_len f.has_off },
       (serializedStreamFrame f).length⟩ :=
  ⟨serialize_eq f out_size hdl hroom,
   parse_serialized f hdl hlen hoff0 hsid hofflt hdlt⟩

/-- Witness for C8: a frame with all three flags set and a 3-byte payload. -/
theorem quicvc_stream_frame_roundtrip_witness :
    quicvc_serialize_stream_frame ⟨0, 5, 7, 3, [10, 20, 30], 3, true, true, true⟩ 20 =
      some (serializedStreamFrame ⟨0, 5, 7, 3, [10, 20, 30], 3, true, true, true⟩) ∧
    quicvc_parse_stream_frame
        (serializedStreamFrame ⟨0, 5, 7, 3, [10, 20, 30], 3, true, true, true⟩) =
      ⟨⟨ftByte true true true, 5, 7, 3, [10, 20, 30], 3, true, true, true⟩,
       (serializedStreamFrame ⟨0, 5, 7, 3, [10, 20, 30], 3, true, true, true⟩).length⟩ :=
  quicvc_stream_frame_roundtrip ⟨0, 5, 7, 3, [10, 20, 30], 3, true, true, true⟩ 20
    (by decide) (by decide) (by decide) (by decide) (by decide) (by decide) (by decide)

/-- C10: an input shorter than 2 bytes, or whose first byte masked with
0xF8 is not the STREAM frame type 0x08, makes `quicvc_parse_stream_frame`
fail before touching any payload byte: it returns the all-zero frame with
zero bytes consumed. -/
theorem quicvc_parse_stream_frame_rejects (data : List Nat)
    (h : data.length < 2 ∨ data.getD 0 0 &&& 0xF8 ≠ QUICVC_FRAME_STREAM) :
    quicvc_parse_stream_frame data = ⟨zeroStreamFrame, 0⟩ := by
  unfold quicvc_parse_stream_frame
  by_cases hl : data.length < 2
  · rw [if_pos hl]
  · rw [if_neg hl]
    rcases h with h | h
    · exact absurd h hl
    · rw [if_pos h]

/-- Witness for C10: a 3-byte buffer whose first byte is not a STREAM type. -/
theorem quicvc_parse_stream_frame_rejects_witness :
    quicvc_parse_stream_frame [1, 2, 3] = ⟨zeroStreamFrame, 0⟩ :=
  quicvc_parse_stream_frame_rejects [1, 2, 3] (Or.inr (by decide))

end Wire

/-! ## Crypto lemmas and claim theorems C3, C4, C9 -/

namespace Crypto

theorem encodeBytes_cons (a : Nat) (l : List Nat) :
    encodeBytes (a :: l) = encodeBytes l * 257 + a + 1 := rfl

theorem encodeBytes_inj (l1 : List Nat) : ∀ l2 : List Nat,
    (∀ x ∈ l1, x < 256) → (∀ x ∈ l2, x < 256) →
    encodeBytes l1 = encodeBytes l2 → l1 = l2 := by
  induction l1 with
  | nil =>
    intro l2 _ h2 he
    cases l2 with
    | nil => rfl
    | cons b t =>
      rw [encodeBytes_cons] at he
      exfalso
      have : encodeBytes [] = 0 := rfl
      omega
  | cons a t ih =>
    intro l2 h1 h2 he
    cases l2 with
    | nil =>
      rw [encodeBytes_cons] at he
      exfalso
      have : encodeBytes ([] : List Nat) = 0 := rfl
      omega
    | cons b t2 =>
      rw [encodeBytes_cons, encodeBytes_cons] at he
      have ha : a < 256 := h1 a (by simp)
      have hb : b < 256 := h2 b (by simp)
      have hab : a = b := by omega
      have ht : encodeBytes t = encodeBytes t2 := by omega
      subst hab
      rw [ih t2 (fun x hx => h1 x (by simp [hx])) (fun x hx => h2 x (by simp [hx])) ht]

theorem ksByte_lt (key nonce : List Nat) (i : Nat) : ksByte key nonce i < 256 :=
  Nat.mod_lt _ (by norm_num)

theorem xor_cancel (x m : Nat) : (x ^^^ m) ^^^ m = x := by
  rw [Nat.xor_assoc, Nat.xor_self, Nat.xor_zero]

theorem xor_lt256 (a b : Nat) (ha : a < 256) (hb : b < 256) : a ^^^ b < 256 := by
  have h8 : (256 : Nat) = 2 ^ 8 := by norm_num
  rw [h8] at ha hb ⊢
  exact Nat.xor_lt_two_pow ha hb

theorem maskFrom_length (key nonce : List Nat) : ∀ (i : Nat) (p : List Nat),
    (maskFrom key nonce i p).length = p.length := by
  intro i p
  induction p generalizing i with
  | nil => rfl
  | cons x t ih => simp [maskFrom, ih]

theorem maskFrom_maskFrom (key nonce : List Nat) : ∀ (i : Nat) (p : List Nat),
    maskFrom key nonce i (maskFrom key nonce i p) = p := by
  intro i p
  induction p generalizing i with
  | nil => rfl
  | cons x t ih => simp [maskFrom, ih, xor_cancel]

theorem maskFrom_mem_lt (key nonce : List Nat) : ∀ (i : Nat) (p : List Nat),
    (∀ x ∈ p, x < 256) → ∀ y ∈ maskFrom key nonce i p, y < 256 := by
  intro i p
  induction p generalizing i with
  | nil => intro _ y hy; simp [maskFrom] at hy
  | cons x t ih =>
    intro hp y hy
    simp only [maskFrom, List.mem_cons] at hy
    rcases hy with hy | hy
    · subst hy
      exact xor_lt256 _ _ (hp x (by simp)) (ksByte_lt key nonce i)
    · exact ih (i + 1) (fun z hz => hp z (by simp [hz])) y hy

theorem maskFrom_set (key nonce : List Nat) : ∀ (i : Nat) (p : List Nat) (j b : Nat),
    maskFrom key nonce i (p.set j b) =
      (maskFrom key nonce i p).set j (b ^^^ ksByte key nonce (i + j)) := by
  intro i p
  induction p generalizing i with
  | nil => intro j b; simp [maskFrom]
  | cons x t ih =>
    intro j b
    cases j with
    | zero => simp [maskFrom, List.set]
    | succ m =>
      simp only [List.set, maskFrom, List.cons.injEq, true_and]
      rw [ih (i + 1) m b]
      have : i + 1 + m = i + (m + 1) := by omega
      rw [this]

end Crypto


namespace Crypto

theorem pnByte_lt (pn i : Nat) : pnByte pn i < 256 := by
  unfold pnByte
  rw [and255_eq_mod]
  exact Nat.mod_lt _ (by norm_num)

theorem getD_lt_256 (l : List Nat) (h : ∀ x ∈ l, x < 256) (j : Nat) : l.getD j 0 < 256 := by
  rcases Nat.lt_or_ge j l.length with hj | hj
  · rw [List.getD_eq_getElem?_getD, List.getElem?_eq_getElem hj]
    exact h _ (List.getElem_mem hj)
  · rw [List.getD_eq_getElem?_getD, List.getElem?_eq_none hj]
    norm_num

theorem getD_range_map (f : Nat → Nat) (n j : Nat) (hj : j < n) :
    ((List.range n).map f).getD j 0 = f j := by
  rw [List.getD_eq_getElem?_getD, List.getElem?_map, List.getElem?_range hj]
  rfl

theorem mkNonce_getD (iv : List Nat) (pn j : Nat) (hj : j < 12) :
    (mkNonce iv pn).getD j 0 =
      if 4 ≤ j then iv.getD j 0 ^^^ pnByte pn (11 - j) else iv.getD j 0 := by
  unfold mkNonce
  exact getD_range_map _ 12 j hj

theorem mkNonce_length (iv : List Nat) (pn : Nat) : (mkNonce iv pn).length = 12 := by
  unfold mkNonce
  rw [List.length_map, List.length_range]

theorem mkNonce_mem_lt (iv : List Nat) (pn : Nat) (hiv : ∀ x ∈ iv, x < 256) :
    ∀ y ∈ mkNonce iv pn, y < 256 := by
  intro y hy
  unfold mkNonce at hy
  rw [List.mem_map] at hy
  obtain ⟨j, _, rfl⟩ := hy
  by_cases h4 : 4 ≤ j
  · simp only [if_pos h4]
    exact xor_lt256 _ _ (getD_lt_256 iv hiv j) (pnByte_lt pn (11 - j))
  · simp only [if_neg h4]
    exact getD_lt_256 iv hiv j

theorem pn_eq_of_bytes (pn pn' : Nat) (hpn : pn < 2 ^ 64) (hpn' : pn' < 2 ^ 64)
    (h : ∀ i, i < 8 → pnByte pn i = pnByte pn' i) : pn = pn' := by
  have h0 := h 0 (by norm_num)
  have h1 := h 1 (by norm_num)
  have h2 := h 2 (by norm_num)
  have h3 := h 3 (by norm_num)
  have h4 := h 4 (by norm_num)
  have h5 := h 5 (by norm_num)
  have h6 := h 6 (by norm_num)
  have h7 := h 7 (by norm_num)
  unfold pnByte at h0 h1 h2 h3 h4 h5 h6 h7
  rw [byte_extract, byte_extract] at h0 h1 h2 h3 h4 h5 h6 h7
  norm_num at h0 h1 h2 h3 h4 h5 h6 h7
  omega

theorem xor_left_cancel (a b c : Nat) (h : a ^^^ b = a ^^^ c) : b = c := by
  have := congrArg (fun x => a ^^^ x) h
  simpa [← Nat.xor_assoc, Nat.xor_self, Nat.zero_xor] using this

theorem mkNonce_inj (iv : List Nat) (pn pn' : Nat) (hpn : pn < 2 ^ 64)
    (hpn' : pn' < 2 ^ 64) (h : mkNonce iv pn = mkNonce iv pn') : pn = pn' := by
  apply pn_eq_of_bytes pn pn' hpn hpn'
  intro i hi
  have hj : 11 - i < 12 := by omega
  have hgd := congrArg (fun l => l.getD (11 - i) 0) h
  simp only at hgd
  rw [mkNonce_getD iv pn (11 - i) hj, mkNonce_getD iv pn' (11 - i) hj] at hgd
  have h4 : 4 ≤ 11 - i := by omega
  rw [if_pos h4, if_pos h4] at hgd
  have hiii : 11 - (11 - i) = i := by omega
  rw [hiii] at hgd
  exact xor_left_cancel _ _ _ hgd

theorem macTag_length (key nonce pt : List Nat) : (macTag key nonce pt).length = 16 := by
  simp [macTag]

theorem macTag_ne_key (k k' n n' p p' : List Nat) (h : encodeBytes k ≠ encodeBytes k') :
    macTag k n p ≠ macTag k' n' p' := by
  intro hc
  unfold macTag at hc
  injection hc with h1 _
  exact h h1

theorem macTag_ne_nonce (k k' n n' p p' : List Nat)
    (h : encodeBytes n ≠ encodeBytes n') : macTag k n p ≠ macTag k' n' p' := by
  intro hc
  unfold macTag at hc
  injection hc with _ hc
  injection hc with h2 _
  exact h h2

theorem macTag_ne_pt (k k' n n' p p' : List Nat) (h : encodeBytes p ≠ encodeBytes p') :
    macTag k n p ≠ macTag k' n' p' := by
  intro hc
  unfold macTag at hc
  injection hc with _ hc
  injection hc with _ hc
  injection hc with h3 _
  exact h h3

end Crypto

namespace Crypto

theorem gcmEncrypt_length (k n p : List Nat) : (gcmEncrypt k n p).length = p.length + 16 := by
  unfold gcmEncrypt
  rw [List.length_append, maskFrom_length, macTag_length]

theorem gcm_take (k n p : List Nat) :
    (gcmEncrypt k n p).take ((gcmEncrypt k n p).length - 16) = maskFrom k n 0 p := by
  rw [gcmEncrypt_length]
  unfold gcmEncrypt
  have h : p.length + 16 - 16 = p.length := by omega
  rw [h, ← maskFrom_length k n 0 p]
  exact List.take_left _ _

theorem gcm_drop (k n p : List Nat) :
    (gcmEncrypt k n p).drop ((gcmEncrypt k n p).length - 16) = macTag k n p := by
  rw [gcmEncrypt_length]
  unfold gcmEncrypt
  have h : p.length + 16 - 16 = p.length := by omega
  rw [h, ← maskFrom_length k n 0 p]
  exact List.drop_left _ _

theorem gcmDecrypt_some (k n p : List Nat) :
    gcmDecrypt k n (maskFrom k n 0 p) (macTag k n p) = some p := by
  unfold gcmDecrypt
  dsimp only
  rw [maskFrom_maskFrom, if_pos rfl]

theorem quicvc_decrypt_of_encrypt (A B : QuicvcCrypto) (p : List Nat) (pn : Nat)
    (hkey : B.recv_key = A.send_key) (hiv : B.recv_iv = A.send_iv) :
    quicvc_decrypt_packet B (quicvc_encrypt_packet A p pn).1 pn =
      some (p, { B with recv_counter := B.recv_counter + 1 }) := by
  unfold quicvc_encrypt_packet quicvc_decrypt_packet
  dsimp only
  rw [if_neg (by rw [gcmEncrypt_length]; omega)]
  rw [hkey, hiv, gcm_take, gcm_drop, gcmDecrypt_some]

theorem quicvc_decrypt_wrong_key (A Bk : QuicvcCrypto) (p : List Nat) (pn : Nat)
    (hiv : Bk.recv_iv = A.send_iv)
    (hKb : ∀ x ∈ A.send_key, x < 256) (hBkb : ∀ x ∈ Bk.recv_key, x < 256)
    (hne : Bk.recv_key ≠ A.send_key) :
    quicvc_decrypt_packet Bk (quicvc_encrypt_packet A p pn).1 pn = none := by
  unfold quicvc_encrypt_packet quicvc_decrypt_packet
  dsimp only
  rw [if_neg (by rw [gcmEncrypt_length]; omega)]
  rw [hiv, gcm_take, gcm_drop]
  have henc : encodeBytes A.send_key ≠ encodeBytes Bk.recv_key :=
    fun he => hne (encodeBytes_inj _ _ hBkb hKb he.symm)
  have hdec : gcmDecrypt Bk.recv_key (mkNonce A.send_iv pn)
      (maskFrom A.send_key (mkNonce A.send_iv pn) 0 p)
      (macTag A.send_key (mkNonce A.send_iv pn) p) = none := by
    unfold gcmDecrypt
    rw [if_neg (macTag_ne_key _ _ _ _ _ _ henc)]
  rw [hdec]

theorem quicvc_decrypt_wrong_pn (A B : QuicvcCrypto) (p : List Nat) (pn pn' : Nat)
    (hkey : B.recv_key = A.send_key) (hiv : B.recv_iv = A.send_iv)
    (hIb : ∀ x ∈ A.send_iv, x < 256)
    (hpn : pn < 2 ^ 64) (hpn' : pn' < 2 ^ 64) (hne : pn' ≠ pn) :
    quicvc_decrypt_packet B (quicvc_encrypt_packet A p pn).1 pn' = none := by
  unfold quicvc_encrypt_packet quicvc_decrypt_packet
  dsimp only
  rw [if_neg (by rw [gcmEncrypt_length]; omega)]
  rw [hkey, hiv, gcm_take, gcm_drop]
  have hnn : mkNonce A.send_iv pn ≠ mkNonce A.send_iv pn' :=
    fun he => hne (mkNonce_inj A.send_iv pn pn' hpn hpn' he).symm
  have henc : encodeBytes (mkNonce A.send_iv pn) ≠ encodeBytes (mkNonce A.send_iv pn') :=
    fun he => hnn (encodeBytes_inj _ _ (mkNonce_mem_lt A.send_iv pn hIb)
      (mkNonce_mem_lt A.send_iv pn' hIb) he)
  have hdec : gcmDecrypt A.send_key (mkNonce A.send_iv pn')
      (maskFrom A.send_key (mkNonce A.send_iv pn) 0 p)
      (macTag A.send_key (mkNonce A.send_iv pn) p) = none := by
    unfold gcmDecrypt
    rw [if_neg (macTag_ne_nonce _ _ _ _ _ _ henc)]
  rw [hdec]

theorem getD_set_self (l : List Nat) (i c : Nat) (h : i < l.length) :
    (l.set i c).getD i 0 = c := by
  rw [List.getD_eq_getElem?_getD, List.getElem?_set]
  simp [h]

theorem set_ne_of_ne (l : List Nat) (i c : Nat) (h : i < l.length) (hc : c ≠ l.getD i 0) :
    l.set i c ≠ l := by
  intro he
  have := congrArg (fun x => x.getD i 0) he
  simp only at this
  rw [getD_set_self l i c h] at this
  exact hc this

theorem maskFrom_getD (k n : List Nat) : ∀ (j : Nat) (p : List Nat) (i : Nat),
    i < p.length → (maskFrom k n j p).getD i 0 = p.getD i 0 ^^^ ksByte k n (j + i) := by
  intro j p
  induction p generalizing j with
  | nil => intro i hi; simp at hi
  | cons x t ih =>
    intro i hi
    cases i with
    | zero => simp [maskFrom]
    | succ m =>
      simp only [maskFrom, List.getD_cons_succ]
      rw [ih (j + 1) m (by simpa using Nat.lt_of_succ_lt_succ hi)]
      have : j + 1 + m = j + (m + 1) := by omega
      rw [this]

theorem gcmDecrypt_tamper_body (k n p : List Nat) (i b : Nat)
    (hpb : ∀ x ∈ p, x < 256) (hip : i < p.length) (hb : b < 256)
    (hbne : b ≠ (maskFrom k n 0 p).getD i 0) :
    gcmDecrypt k n ((maskFrom k n 0 p).set i b) (macTag k n p) = none := by
  unfold gcmDecrypt
  dsimp only
  rw [maskFrom_set, maskFrom_maskFrom]
  have hval : b ^^^ ksByte k n (0 + i) ≠ p.getD i 0 := by
    rw [Nat.zero_add]
    intro he
    rw [maskFrom_getD k n 0 p i hip, Nat.zero_add] at hbne
    apply hbne
    rw [← he, xor_cancel]
  have hsetne : p.set i (b ^^^ ksByte k n (0 + i)) ≠ p :=
    set_ne_of_ne p i _ hip hval
  have hsetb : ∀ x ∈ p.set i (b ^^^ ksByte k n (0 + i)), x < 256 := by
    intro x hx
    rcases List.mem_or_eq_of_mem_set hx with hx | hx
    · exact hpb x hx
    · subst hx
      exact xor_lt256 _ _ hb (ksByte_lt k n (0 + i))
  have henc : encodeBytes p ≠ encodeBytes (p.set i (b ^^^ ksByte k n (0 + i))) :=
    fun he => hsetne (encodeBytes_inj _ _ hsetb hpb he.symm)
  rw [if_neg (macTag_ne_pt _ _ _ _ _ _ henc)]

theorem gcmDecrypt_tamper_tag (k n p : List Nat) (j b : Nat)
    (hj : j < 16) (hbne : b ≠ (macTag k n p).getD j 0) :
    gcmDecrypt k n (maskFrom k n 0 p) ((macTag k n p).set j b) = none := by
  unfold gcmDecrypt
  dsimp only
  rw [maskFrom_maskFrom]
  have hne : (macTag k n p).set j b ≠ macTag k n p :=
    set_ne_of_ne _ j b (by rw [macTag_length]; omega) hbne
  rw [if_neg hne]

theorem quicvc_decrypt_tamper (A B : QuicvcCrypto) (p : List Nat) (pn i b : Nat)
    (hkey : B.recv_key = A.send_key) (hiv : B.recv_iv = A.send_iv)
    (hpb : ∀ x ∈ p, x < 256)
    (hi : i < ((quicvc_encrypt_packet A p pn).1).length)
    (hb : b < 256)
    (hbne : b ≠ ((quicvc_encrypt_packet A p pn).1).getD i 0) :
    quicvc_decrypt_packet B (((quicvc_encrypt_packet A p pn).1).set i b) pn = none := by
  have hmlen := maskFrom_length A.send_key (mkNonce A.send_iv pn) 0 p
  have htlen := macTag_length A.send_key (mkNonce A.send_iv pn) p
  unfold quicvc_encrypt_packet gcmEncrypt at hi hbne ⊢
  dsimp only at hi hbne ⊢
  rw [List.length_append, hmlen, htlen] at hi
  rw [List.set_append]
  unfold quicvc_decrypt_packet
  dsimp only
  rw [hkey, hiv]
  by_cases hzone : i < (maskFrom A.send_key (mkNonce A.send_iv pn) 0 p).length
  · -- tampered byte inside the ciphertext body
    rw [if_pos hzone] at *
    have hip : i < p.length := by rw [hmlen] at hzone; exact hzone
    have hslen : ((maskFrom A.send_key (mkNonce A.send_iv pn) 0 p).set i b).length =
        p.length := by rw [List.length_set, hmlen]
    have hL : ((maskFrom A.send_key (mkNonce A.send_iv pn) 0 p).set i b ++
        macTag A.send_key (mkNonce A.send_iv pn) p).length = p.length + 16 := by
      rw [List.length_append, hslen, htlen]
    rw [if_neg (by rw [hL]; omega)]
    rw [hL]
    have h16 : p.length + 16 - 16 = p.length := by omega
    rw [h16]
    rw [show List.take p.length
        ((maskFrom A.send_key (mkNonce A.send_iv pn) 0 p).set i b ++
          macTag A.send_key (mkNonce A.send_iv pn) p) =
        (maskFrom A.send_key (mkNonce A.send_iv pn) 0 p).set i b from by
      rw [← hslen]; exact List.take_left _ _]
    rw [show List.drop p.length
        ((maskFrom A.send_key (mkNonce A.send_iv pn) 0 p).set i b ++
          macTag A.send_key (mkNonce A.send_iv pn) p) =
        macTag A.send_key (mkNonce A.send_iv pn) p from by
      rw [← hslen]; exact List.drop_left _ _]
    have hbne2 : b ≠ (maskFrom A.send_key (mkNonce A.send_iv pn) 0 p).getD i 0 := by
      rw [List.getD_append _ _ _ i hzone] at hbne
      exact hbne
    rw [gcmDecrypt_tamper_body _ _ p i b hpb hip hb hbne2]
  · -- tampered byte inside the tag
    rw [if_neg hzone] at *
    have hj : i - (maskFrom A.send_key (mkNonce A.send_iv pn) 0 p).length < 16 := by
      rw [hmlen] at hzone ⊢
      omega
    have hL : ((maskFrom A.send_key (mkNonce A.send_iv pn) 0 p) ++
        (macTag A.send_key (mkNonce A.send_iv pn) p).set
          (i - (maskFrom A.send_key (mkNonce A.send_iv pn) 0 p).length) b).length =
        p.length + 16 := by
      rw [List.length_append, List.length_set, hmlen, htlen]
    rw [if_neg (by rw [hL]; omega)]
    rw [hL]
    have h16 : p.length + 16 - 16 = p.length := by omega
    rw [h16]
    rw [show List.take p.length
        ((maskFrom A.send_key (mkNonce A.send_iv pn) 0 p) ++
          (macTag A.send_key (mkNonce A.send_iv pn) p).set
            (i - (maskFrom A.send_key (mkNonce A.send_iv pn) 0 p).length) b) =
        maskFrom A.send_key (mkNonce A.send_iv pn) 0 p from by
      rw [← hmlen]; exact List.take_left _ _]
    rw [show List.drop p.length
        ((maskFrom A.send_key (mkNonce A.send_iv pn) 0 p) ++
          (macTag A.send_key (mkNonce A.send_iv pn) p).set
            (i - (maskFrom A.send_key (mkNonce A.send_iv pn) 0 p).length) b) =
        (macTag A.send_key (mkNonce A.send_iv pn) p).set
          (i - (maskFrom A.send_key (mkNonce A.send_iv pn) 0 p).length) b from by
      rw [← hmlen]; exact List.drop_left _ _]
    have hbne2 : b ≠ (macTag A.send_key (mkNonce A.send_iv pn) p).getD
        (i - (maskFrom A.send_key (mkNonce A.send_iv pn) 0 p).length) 0 := by
      rw [List.getD_append_right _ _ _ i (Nat.le_of_not_lt hzone)] at hbne
      exact hbne
    rw [gcmDecrypt_tamper_tag _ _ p _ b hj hbne2]

end Crypto

namespace Crypto

/-- C3: with matching directional key material (receiver's `recv_key`/
`recv_iv` equal to the sender's `send_key`/`send_iv`), decrypting the
output of `quicvc_encrypt_packet` at the same packet number returns
exactly the plaintext; decrypting with a different key, a different
packet number, or with any single byte of the ciphertext-or-tag changed
returns failure (`none`, the model of `ESP_FAIL`) and never yields a
plaintext.  The mbedtls AES-GCM primitive is modelled as an ideal
authenticated-encryption scheme; the nonce construction, key selection,
tag placement and counter updates are the embedded C code. -/
theorem quicvc_aead_correct
    (A B Bk : QuicvcCrypto) (p : List Nat) (pn pn' i b : Nat)
    (hkey : B.recv_key = A.send_key) (hiv : B.recv_iv = A.send_iv)
    (hKb : ∀ x ∈ A.send_key, x < 256)
    (hIb : ∀ x ∈ A.send_iv, x < 256)
    (hpb : ∀ x ∈ p, x < 256)
    (hpn : pn < 2 ^ 64) (hpn' : pn' < 2 ^ 64) (hpnne : pn' ≠ pn)
    (hBkiv : Bk.recv_iv = A.send_iv)
    (hBkb : ∀ x ∈ Bk.recv_key, x < 256)
    (hBkne : Bk.recv_key ≠ A.send_key)
    (hi : i < ((quicvc_encrypt_packet A p pn).1).length)
    (hb : b < 256)
    (hbne : b ≠ ((quicvc_encrypt_packet A p pn).1).getD i 0) :
    Option.map Prod.fst (quicvc_decrypt_packet B (quicvc_encrypt_packet A p pn).1 pn) =
      some p ∧
    quicvc_decrypt_packet Bk (quicvc_encrypt_packet A p pn).1 pn = none ∧
    quicvc_decrypt_packet B (quicvc_encrypt_packet A p pn).1 pn' = none ∧
    quicvc_decrypt_packet B (((quicvc_encrypt_packet A p pn).1).set i b) pn = none := by
  refine ⟨?_, ?_, ?_, ?_⟩
  · rw [quicvc_decrypt_of_encrypt A B p pn hkey hiv]
    rfl
  · exact quicvc_decrypt_wrong_key A Bk p pn hBkiv hKb hBkb hBkne
  · exact quicvc_decrypt_wrong_pn A B p pn pn' hkey hiv hIb hpn hpn' hpnne
  · exact quicvc_decrypt_tamper A B p pn i b hkey hiv hpb hi hb hbne

/-- Witness for C3 at concrete contexts, plaintext `[42]`, packet number 5,
wrong packet number 7, wrong key `[2]`, and first ciphertext byte
tampered to 255. -/
theorem quicvc_aead_correct_witness :
    Option.map Prod.fst (quicvc_decrypt_packet
        ⟨[9], [1], List.replicate 12 0, List.replicate 12 0, 0, 0⟩
        (quicvc_encrypt_packet
          ⟨[1], [9], List.replicate 12 0, List.replicate 12 0, 0, 0⟩ [42] 5).1 5) =
      some [42] ∧
    quicvc_decrypt_packet
        ⟨[9], [2], List.replicate 12 0, List.replicate 12 0, 0, 0⟩
        (quicvc_encrypt_packet
          ⟨[1], [9], List.replicate 12 0, List.replicate 12 0, 0, 0⟩ [42] 5).1 5 = none ∧
    quicvc_decrypt_packet
        ⟨[9], [1], List.replicate 12 0, List.replicate 12 0, 0, 0⟩
        (quicvc_encrypt_packet
          ⟨[1], [9], List.replicate 12 0, List.replicate 12 0, 0, 0⟩ [42] 5).1 7 = none ∧
    quicvc_decrypt_packet
        ⟨[9], [1], List.replicate 12 0, List.replicate 12 0, 0, 0⟩
        ((quicvc_encrypt_packet
          ⟨[1], [9], List.replicate 12 0, List.replicate 12 0, 0, 0⟩ [42] 5).1.set 0 255) 5 =
      none := by
  have h := quicvc_aead_correct
    ⟨[1], [9], List.replicate 12 0, List.replicate 12 0, 0, 0⟩
    ⟨[9], [1], List.replicate 12 0, List.replicate 12 0, 0, 0⟩
    ⟨[9], [2], List.replicate 12 0, List.replicate 12 0, 0, 0⟩
    [42] 5 7 0 255 rfl rfl (by decide) (by decide) (by decide)
    (by norm_num) (by norm_num) (by decide) rfl (by decide) (by decide)
    (by decide) (by decide) (by decide)
  exact h

end Crypto

namespace Crypto

/-- Sequence of packet numbers used by successive sends: starting counter,
then successor, one per payload. -/
theorem quicvc_send_pns_eq_range' (ps : List (List Nat)) :
    ∀ (conn : Minimal.QuicvcConnection) (ctx : QuicvcCrypto), conn.state = 2 →
    quicvc_send_pns conn ctx ps = List.range' conn.packet_number ps.length := by
  induction ps with
  | nil => intro conn ctx _; rfl
  | cons p rest ih =>
    intro conn ctx h2
    unfold quicvc_send_pns quicvc_build_encrypted_packet
    rw [if_neg (by rw [h2]; exact fun hc => hc rfl)]
    dsimp only
    rw [List.length_cons, List.range'_succ]
    rw [ih { conn with packet_number := conn.packet_number + 1 } _ h2]

/-- C9 (amended): the send side is strictly monotonic — on an established
connection each successful `quicvc_build_encrypted_packet` uses the
current `conn->packet_number` and post-increments it, so the packet
numbers of successive sends are exactly `counter, counter+1, ...` and
strictly increasing.  The receive side performs no such check: see the
replay counterexample, where the same (key, packet number) pair is
accepted twice. -/
theorem quicvc_send_pns_strictly_monotonic (conn : Minimal.QuicvcConnection)
    (ctx : QuicvcCrypto) (ps : List (List Nat)) (h2 : conn.state = 2) :
    quicvc_send_pns conn ctx ps = List.range' conn.packet_number ps.length ∧
    List.Pairwise (· < ·) (quicvc_send_pns conn ctx ps) := by
  have he := quicvc_send_pns_eq_range' ps conn ctx h2
  refine ⟨he, ?_⟩
  rw [he]
  exact List.pairwise_lt_range' _ _

/-- Witness for the amended C9 theorem: an established connection with
counter 10 sending three payloads uses packet numbers 10, 11, 12. -/
theorem quicvc_send_pns_strictly_monotonic_witness :
    quicvc_send_pns ⟨[3], [4], 2, [7], 10, 0⟩
        ⟨[1], [9], List.replicate 12 0, List.replicate 12 0, 0, 0⟩ [[1], [2], [3]] =
      [10, 11, 12] ∧
    List.Pairwise (· < ·)
      (quicvc_send_pns ⟨[3], [4], 2, [7], 10, 0⟩
        ⟨[1], [9], List.replicate 12 0, List.replicate 12 0, 0, 0⟩ [[1], [2], [3]]) := by
  have h := quicvc_send_pns_strictly_monotonic ⟨[3], [4], 2, [7], 10, 0⟩
    ⟨[1], [9], List.replicate 12 0, List.replicate 12 0, 0, 0⟩ [[1], [2], [3]] rfl
  exact ⟨by rw [h.1]; rfl, h.2⟩

/-- C9 counterexample: `quicvc_decrypt_packet` never compares the received
packet number with `recv_counter`; replaying the identical ciphertext
with the identical packet number 5 succeeds twice in a row, so a given
(key, packet number) pair is used in two AEAD operations on the receive
side, contradicting the claimed strict monotonicity of each direction. -/
theorem quicvc_decrypt_packet_replay :
    quicvc_decrypt_packet ⟨[2], [1], List.replicate 12 0, List.replicate 12 0, 0, 0⟩
        (quicvc_encrypt_packet
          ⟨[1], [2], List.replicate 12 0, List.replicate 12 0, 0, 0⟩ [42] 5).1 5 =
      some ([42], ⟨[2], [1], List.replicate 12 0, List.replicate 12 0, 0, 1⟩) ∧
    quicvc_decrypt_packet ⟨[2], [1], List.replicate 12 0, List.replicate 12 0, 0, 1⟩
        (quicvc_encrypt_packet
          ⟨[1], [2], List.replicate 12 0, List.replicate 12 0, 0, 0⟩ [42] 5).1 5 =
      some ([42], ⟨[2], [1], List.replicate 12 0, List.replicate 12 0, 0, 2⟩) := by
  exact ⟨by decide, by decide⟩

/-- C4: the role/direction domain-separation tags make the two roles' keys
complementary (client send = server receive and vice versa, for every
session key), but the IV material is derived from the role-independent
tag `iv-material` and split identically for both roles, so the
initiator's `send_iv` equals the responder's `send_iv` — not the
responder's `recv_iv`.  At the all-zero session key the initiator's
`send_iv` provably differs from the responder's `recv_iv`, so the two
ends of the channel disagree on the nonce and AES-GCM decryption of
every cross-peer packet fails: the code contradicts §4.4 of the spec
(and makes §8's AEAD roundtrip property unachievable between peers),
which is the intended behaviour — a code bug. -/
theorem quicvc_derive_keys_iv_bug :
    (∀ sk : List Nat,
      (quicvc_derive_keys sk false).send_key = (quicvc_derive_keys sk true).recv_key ∧
      (quicvc_derive_keys sk false).recv_key = (quicvc_derive_keys sk true).send_key ∧
      (quicvc_derive_keys sk false).send_iv = (quicvc_derive_keys sk true).send_iv ∧
      (quicvc_derive_keys sk false).recv_iv = (quicvc_derive_keys sk true).recv_iv) ∧
    (quicvc_derive_keys (List.replicate 32 0) false).send_iv ≠
      (quicvc_derive_keys (List.replicate 32 0) true).recv_iv := by
  exact ⟨fun sk => ⟨rfl, rfl, rfl, rfl⟩, by decide⟩

end Crypto

namespace Minimal

/-- C6 counterexample: processing a single Initial packet's VC_INIT frame
with a matching issuer, starting from no connection and with no peer
Handshake message ever received and no directional keys derived,
leaves `active_connection` in state 2 (established) — not in the
handshake state the claim allows at most. -/
theorem handle_vc_init_initial_reaches_established :
    Option.map QuicvcConnection.state
      (handle_vc_init (some ⟨some ⟨some issuerA⟩, some challengeA⟩) issuerA deviceA
        (List.replicate 16 7) 100 none) = some 2 := rfl

/-- C6 (amended): on any valid VC_INIT (parsed payload with credential and
challenge, issuer equal to the device credential's issuer) the reference
replaces the connection and transitions it through state 1 directly to
state 2 (established) within the same call, after emitting its
VC_RESPONSE (packet number 0 consumed, counter left at 1), without
waiting for any peer Handshake message and without deriving directional
keys; any invalid message (wrong issuer, parse failure) leaves the
connection unchanged. -/
theorem handle_vc_init_establishes (iss chal devId devIss : String)
    (cid : List Nat) (now : Nat) (conn conn2 : Option QuicvcConnection)
    (iss2 : String) (hiss : iss = devIss) (hiss2 : iss2 ≠ devIss) :
    handle_vc_init (some ⟨some ⟨some iss⟩, some chal⟩) devIss devId cid now conn =
      some { dcid := cid, scid := cid, state := 2,
             session_key := derive_session_key devId iss chal,
             packet_number := 1, last_activity := now } ∧
    handle_vc_init (some ⟨some ⟨some iss2⟩, some chal⟩) devIss devId cid now conn2 =
      conn2 ∧
    handle_vc_init none devIss devId cid now conn2 = conn2 := by
  subst hiss
  refine ⟨?_, ?_, rfl⟩
  · unfold handle_vc_init
    dsimp only
    rw [if_neg (fun hc => hc rfl)]
  · unfold handle_vc_init
    dsimp only
    rw [if_pos hiss2]

/-- Witness for the amended C6 theorem at concrete identities. -/
theorem handle_vc_init_establishes_witness :
    handle_vc_init (some ⟨some ⟨some issuerA⟩, some challengeA⟩) issuerA deviceA
        (List.replicate 16 7) 100 none =
      some { dcid := List.replicate 16 7, scid := List.replicate 16 7, state := 2,
             session_key := derive_session_key deviceA issuerA challengeA,
             packet_number := 1, last_activity := 100 } ∧
    handle_vc_init (some ⟨some ⟨some deviceA⟩, some challengeA⟩) issuerA deviceA
        (List.replicate 16 7) 100 none = none ∧
    handle_vc_init none issuerA deviceA (List.replicate 16 7) 100 none = none :=
  handle_vc_init_establishes issuerA challengeA deviceA issuerA
    (List.replicate 16 7) 100 none none deviceA rfl (by decide)

end Minimal

theorem string_length_eq_zero (s : String) : s.length = 0 ↔ s = "" := by
  cases s with
  | mk data =>
    constructor
    · intro h
      have hd : data = [] := List.length_eq_zero.mp h
      subst hd
      rfl
    · intro h
      have hd : data = [] := by
        have := congrArg String.data h
        simpa using this
      subst hd
      rfl

namespace Removal

/-- Rejected removal requests (any reason) never mutate the state. -/
theorem removal_reject_no_mutation (msg : RemovalMsg) (devId : String)
    (st : RemovalState) (f : RemovalFaults) :
    (handle_ownership_removal msg devId st f).1 ≠ RemovalResult.removed →
      (handle_ownership_removal msg devId st f).2 = st := by
  unfold handle_ownership_removal
  obtain ⟨d, s⟩ := msg
  dsimp only
  repeat' split
  all_goals intro h
  all_goals first
    | rfl
    | exact absurd rfl h

/-- C2: a removal request addressed to this device with a sender field is
accepted (reaches the erase path) exactly when an owner is stored and
the sender string equals it byte-for-byte (`strcmp == 0`); every
rejected request — wrong sender, no stored owner, wrong device,
missing fields — leaves the whole state, `OwnershipRecord` included,
unchanged. -/
theorem handle_ownership_removal_authorization
    (devId sender owner : String) (st st2 : RemovalState) (f f2 : RemovalFaults)
    (msg2 : RemovalMsg)
    (hown : nvs_get_owner st = some owner) :
    ((handle_ownership_removal ⟨some devId, some sender⟩ devId st f).1 =
        RemovalResult.removed ↔ owner ≠ "" ∧ sender = owner) ∧
    ((handle_ownership_removal ⟨some devId, some sender⟩ devId st f).1 ≠
        RemovalResult.removed →
      (handle_ownership_removal ⟨some devId, some sender⟩ devId st f).2 = st) ∧
    ((handle_ownership_removal msg2 devId st2 f2).1 ≠ RemovalResult.removed →
      (handle_ownership_removal msg2 devId st2 f2).2 = st2) := by
  refine ⟨?_, removal_reject_no_mutation _ _ _ _, removal_reject_no_mutation _ _ _ _⟩
  unfold handle_ownership_removal
  dsimp only
  rw [if_neg (fun hc : devId ≠ devId => hc rfl), hown]
  dsimp only
  by_cases h0 : owner.length = 0
  · rw [if_pos h0]
    have he : owner = "" := (string_length_eq_zero owner).mp h0
    simp [he]
  · rw [if_neg h0]
    have hne : owner ≠ "" := fun hc => h0 ((string_length_eq_zero owner).mpr hc)
    by_cases hs : sender ≠ owner
    · rw [if_pos hs]
      simp [hs]
    · rw [if_neg hs]
      simp [hne, Decidable.not_not.mp hs]

/-- Witness for C2: stored owner is the canonical 64-character identity;
the owner's request is accepted, a non-owner request is rejected and
mutates nothing. -/
theorem handle_ownership_removal_authorization_witness :
    ((handle_ownership_removal ⟨some CredService.devD, some Provision.issuer64⟩
        CredService.devD
        ⟨some Provision.issuer64, some vcBlobA, [], 0, true, Provision.issuer64,
          some vcBlobA⟩ ⟨true, true, true⟩).1 =
      RemovalResult.removed ↔ Provision.issuer64 ≠ "" ∧
        Provision.issuer64 = Provision.issuer64) ∧
    ((handle_ownership_removal ⟨some CredService.devD, some Provision.issuer64⟩
        CredService.devD
        ⟨some Provision.issuer64, some vcBlobA, [], 0, true, Provision.issuer64,
          some vcBlobA⟩ ⟨true, true, true⟩).1 ≠ RemovalResult.removed →
      (handle_ownership_removal ⟨some CredService.devD, some Provision.issuer64⟩
        CredService.devD
        ⟨some Provision.issuer64, some vcBlobA, [], 0, true, Provision.issuer64,
          some vcBlobA⟩ ⟨true, true, true⟩).2 =
        ⟨some Provision.issuer64, some vcBlobA, [], 0, true, Provision.issuer64,
          some vcBlobA⟩) ∧
    ((handle_ownership_removal ⟨some CredService.devD, some senderX⟩
        CredService.devD
        ⟨some Provision.issuer64, some vcBlobA, [], 0, true, Provision.issuer64,
          some vcBlobA⟩ ⟨true, true, true⟩).1 ≠ RemovalResult.removed →
      (handle_ownership_removal ⟨some CredService.devD, some senderX⟩
        CredService.devD
        ⟨some Provision.issuer64, some vcBlobA, [], 0, true, Provision.issuer64,
          some vcBlobA⟩ ⟨true, true, true⟩).2 =
        ⟨some Provision.issuer64, some vcBlobA, [], 0, true, Provision.issuer64,
          some vcBlobA⟩) :=
  handle_ownership_removal_authorization CredService.devD Provision.issuer64
    Provision.issuer64
    ⟨some Provision.issuer64, some vcBlobA, [], 0, true, Provision.issuer64, some vcBlobA⟩
    ⟨some Provision.issuer64, some vcBlobA, [], 0, true, Provision.issuer64, some vcBlobA⟩
    ⟨true, true, true⟩ ⟨true, true, true⟩
    ⟨some CredService.devD, some senderX⟩ (by decide)

end Removal

namespace Provision

/-- A failed NVS commit leaves the entire device state (durable store and
in-memory ownership/attestation/cache/owner-address state) unchanged. -/
theorem handle_vc_exchange_commit_fail (msg : Option VcMsg) (st : VcDeviceState)
    (ip : String) (port : Nat) (f : NvsFaults) (hf : f.commitOk = false) :
    (handle_vc_exchange_message msg st ip port f).2 = st := by
  unfold handle_vc_exchange_message
  rcases msg with _ | ⟨ty, pur, vc⟩
  · rfl
  · dsimp only
    rcases ty with _ | t
    · rfl
    · dsimp only
      by_cases h1 : t = vcRequestStr
      · rw [if_pos h1]
      · rw [if_neg h1]
        by_cases h2 : t = presentVcStr
        · rw [if_pos h2]
          rcases pur with _ | pu
          · rfl
          · dsimp only
            by_cases h3 : pu = deviceProvisioningStr
            · rw [if_pos h3]
              rcases vc with _ | ⟨iss, pr⟩
              · rfl
              · dsimp only
                rcases iss with _ | iss
                · rfl
                · dsimp only
                  by_cases h4 : iss.length ≠ 64
                  · rw [if_pos h4]
                  · rw [if_neg h4]
                    by_cases h5 : has_owner st.nvs = true
                    · rw [if_pos h5]
                    · rw [if_neg h5]
                      by_cases h6 : f.openOk = true
                      · rw [if_neg (by simp [h6])]
                        by_cases h7 : f.setOwnerOk = true
                        · rw [if_neg (by simp [h7]), if_neg (by simp [hf])]
                        · rw [if_pos h7]
                      · rw [if_pos h6]
            · rw [if_neg h3]
        · rw [if_neg h2]

/-- The in-memory ownership flag flips only when the commit succeeded. -/
theorem handle_vc_exchange_flag_gated (msg : Option VcMsg) (st : VcDeviceState)
    (ip : String) (port : Nat) (g : NvsFaults) :
    (handle_vc_exchange_message msg st ip port g).2.attestation_owned ≠
        st.attestation_owned → g.commitOk = true := by
  intro hne
  by_cases hg : g.commitOk = true
  · exact hg
  · exfalso
    have hgf : g.commitOk = false := by
      revert hg
      cases g.commitOk <;> simp
    rw [handle_vc_exchange_commit_fail msg st ip port g hgf] at hne
    exact hne rfl

end Provision

namespace CredService

/-- A failed NVS operation or commit in `store_credential` leaves both the
durable store and the in-memory owner globals unchanged. -/
theorem store_credential_commit_fail (cred : ParsedCred) (st : CredHandlerState)
    (f : CredFaults) (hf : f.commitOk = false) :
    (store_credential cred st f).2 = st := by
  unfold store_credential
  by_cases h1 : f.handleOk = true
  · rw [if_neg (by simp [h1])]
    by_cases h2 : cred.own = ownerStr
    · rw [if_pos h2]
      by_cases h3 : f.setOwnerOk = true
      · rw [if_neg (by simp [h3])]
        by_cases h4 : f.setCredOk = true
        · rw [if_neg (by simp [h4]), if_pos (by simp [hf])]
        · rw [if_pos h4]
      · rw [if_pos h3]
    · rw [if_neg h2]
  · rw [if_pos h1]

/-- `has_owner_flag` is set only strictly after a successful commit. -/
theorem store_credential_flag_gated (cred : ParsedCred) (st : CredHandlerState)
    (g : CredFaults) :
    (store_credential cred st g).2.has_owner_flag ≠ st.has_owner_flag →
      g.commitOk = true := by
  intro hne
  by_cases hg : g.commitOk = true
  · exact hg
  · exfalso
    have hgf : g.commitOk = false := by
      revert hg
      cases g.commitOk <;> simp
    rw [store_credential_commit_fail cred st g hgf] at hne
    exact hne rfl

/-- A failed commit leaves the credential-service state unchanged. -/
theorem handle_credential_service_commit_fail (p : CredPayload) (devId : String)
    (now : Int) (st : CredHandlerState) (f : CredFaults) (hf : f.commitOk = false) :
    (handle_credential_service p devId now st f).2 = st := by
  unfold handle_credential_service
  rcases p with _ | _ | _ | fs
  · rfl
  · rfl
  · rfl
  · dsimp only
    repeat' split
    all_goals first
      | rfl
      | exact store_credential_commit_fail _ _ _ hf

/-- The credential-service ownership flag flips only after the commit. -/
theorem handle_credential_service_flag_gated (p : CredPayload) (devId : String)
    (now : Int) (st : CredHandlerState) (g : CredFaults) :
    (handle_credential_service p devId now st g).2.has_owner_flag ≠
        st.has_owner_flag → g.commitOk = true := by
  intro hne
  by_cases hg : g.commitOk = true
  · exact hg
  · exfalso
    have hgf : g.commitOk = false := by
      revert hg
      cases g.commitOk <;> simp
    rw [handle_credential_service_commit_fail p devId now st g hgf] at hne
    exact hne rfl

end CredService

/-- C5: on every provisioning path (the VC-presentation handler and the
credential-service `store_credential` path), a failed persistence commit
leaves the state — durable store and in-memory ownership flags — exactly
as it was (the device stays unclaimed), and the in-memory ownership flag
can only change when the commit has succeeded, i.e. the flag flip
happens strictly after a successful commit. -/
theorem provisioning_commit_gating
    (msg : Option Provision.VcMsg) (st : Provision.VcDeviceState)
    (ip : String) (port : Nat) (f g : Provision.NvsFaults)
    (cred : CredService.ParsedCred) (stC : CredService.CredHandlerState)
    (fC gC : CredService.CredFaults)
    (p : CredService.CredPayload) (devId : String) (now : Int)
    (hf : f.commitOk = false) (hfC : fC.commitOk = false) :
    (Provision.handle_vc_exchange_message msg st ip port f).2 = st ∧
    ((Provision.handle_vc_exchange_message msg st ip port g).2.attestation_owned ≠
        st.attestation_owned → g.commitOk = true) ∧
    (CredService.store_credential cred stC fC).2 = stC ∧
    ((CredService.store_credential cred stC gC).2.has_owner_flag ≠
        stC.has_owner_flag → gC.commitOk = true) ∧
    (CredService.handle_credential_service p devId now stC fC).2 = stC ∧
    ((CredService.handle_credential_service p devId now stC gC).2.has_owner_flag ≠
        stC.has_owner_flag → gC.commitOk = true) :=
  ⟨Provision.handle_vc_exchange_commit_fail msg st ip port f hf,
   Provision.handle_vc_exchange_flag_gated msg st ip port g,
   CredService.store_credential_commit_fail cred stC fC hfC,
   CredService.store_credential_flag_gated cred stC gC,
   CredService.handle_credential_service_commit_fail p devId now stC fC hfC,
   CredService.handle_credential_service_flag_gated p devId now stC gC⟩

/-- Witness for C5 at a concrete unowned device, valid 64-character-issuer
presentation and valid owner credential, with commit failure injected
(`f`) and without (`g`). -/
theorem provisioning_commit_gating_witness :
    (Provision.handle_vc_exchange_message
        (some ⟨some Provision.presentVcStr, some Provision.deviceProvisioningStr,
          some ⟨some Provision.issuer64, Provision.blobA⟩⟩)
        ⟨⟨none, none, none⟩, false, none, true, false, Provision.ipA, 0, false⟩
        Provision.ipA 7 ⟨true, true, true, true, false⟩).2 =
      ⟨⟨none, none, none⟩, false, none, true, false, Provision.ipA, 0, false⟩ ∧
    ((Provision.handle_vc_exchange_message
        (some ⟨some Provision.presentVcStr, some Provision.deviceProvisioningStr,
          some ⟨some Provision.issuer64, Provision.blobA⟩⟩)
        ⟨⟨none, none, none⟩, false, none, true, false, Provision.ipA, 0, false⟩
        Provision.ipA 7 ⟨true, true, true, true, true⟩).2.attestation_owned ≠
      (⟨⟨none, none, none⟩, false, none, true, false, Provision.ipA, 0, false⟩ :
        Provision.VcDeviceState).attestation_owned →
      (⟨true, true, true, true, true⟩ : Provision.NvsFaults).commitOk = true) ∧
    (CredService.store_credential
        ⟨CredService.idC, CredService.issX, CredService.subS, CredService.devD,
          "", 0, 0, CredService.ownerStr, "", "", "", true⟩
        ⟨"", false, none, []⟩ ⟨true, true, true, false⟩).2 = ⟨"", false, none, []⟩ ∧
    ((CredService.store_credential
        ⟨CredService.idC, CredService.issX, CredService.subS, CredService.devD,
          "", 0, 0, CredService.ownerStr, "", "", "", true⟩
        ⟨"", false, none, []⟩ ⟨true, true, true, true⟩).2.has_owner_flag ≠
      (⟨"", false, none, []⟩ : CredService.CredHandlerState).has_owner_flag →
      (⟨true, true, true, true⟩ : CredService.CredFaults).commitOk = true) ∧
    (CredService.handle_credential_service
        (CredService.CredPayload.ok
          ⟨some CredService.idC, some CredService.issX, some CredService.subS,
            some CredService.devD, none, none, none, some CredService.ownerStr,
            none, none, none, some true⟩)
        CredService.devD 0 ⟨"", false, none, []⟩ ⟨true, true, true, false⟩).2 =
      ⟨"", false, none, []⟩ ∧
    ((CredService.handle_credential_service
        (CredService.CredPayload.ok
          ⟨some CredService.idC, some CredService.issX, some CredService.subS,
            some CredService.devD, none, none, none, some CredService.ownerStr,
            none, none, none, some true⟩)
        CredService.devD 0 ⟨"", false, none, []⟩
        ⟨true, true, true, true⟩).2.has_owner_flag ≠
      (⟨"", false, none, []⟩ : CredService.CredHandlerState).has_owner_flag →
      (⟨true, true, true, true⟩ : CredService.CredFaults).commitOk = true) :=
  provisioning_commit_gating
    (some ⟨some Provision.presentVcStr, some Provision.deviceProvisioningStr,
      some ⟨some Provision.issuer64, Provision.blobA⟩⟩)
    ⟨⟨none, none, none⟩, false, none, true, false, Provision.ipA, 0, false⟩
    Provision.ipA 7 ⟨true, true, true, true, false⟩ ⟨true, true, true, true, true⟩
    ⟨CredService.idC, CredService.issX, CredService.subS, CredService.devD,
      "", 0, 0, CredService.ownerStr, "", "", "", true⟩
    ⟨"", false, none, []⟩ ⟨true, true, true, false⟩ ⟨true, true, true, true⟩
    (CredService.CredPayload.ok
      ⟨some CredService.idC, some CredService.issX, some CredService.subS,
        some CredService.devD, none, none, none, some CredService.ownerStr,
        none, none, none, some true⟩)
    CredService.devD 0 rfl rfl

namespace CredService

/-- C1 counterexample: the credential-service provisioning handler
(`handle_credential_service`) performs no issuer-length check — an
unowned device accepts a credential whose issuer is the single
character `x` and becomes owned — and, once owned, it accepts a second
credential from a *different* issuer (`y`) because its already-owned
test compares the stored owner against the candidate's **subject**,
not its issuer. -/
theorem handle_credential_service_accepts_non_canonical :
    (handle_credential_service
        (CredPayload.ok ⟨some idC, some issX, some subS, some devD, none, none,
          none, some ownerStr, none, none, none, some true⟩)
        devD 0 ⟨"", false, none, []⟩ ⟨true, true, true, true⟩).1 =
      CredServiceResult.accepted ∧
    issX.length ≠ 64 ∧
    (handle_credential_service
        (CredPayload.ok ⟨some idC, some issX, some subS, some devD, none, none,
          none, some ownerStr, none, none, none, some true⟩)
        devD 0 ⟨"", false, none, []⟩ ⟨true, true, true, true⟩).2.has_owner_flag =
      true ∧
    (handle_credential_service
        (CredPayload.ok ⟨some idC, some issY, some subS, some devD, none, none,
          none, some ownerStr, none, none, none, some true⟩)
        devD 0
        (handle_credential_service
          (CredPayload.ok ⟨some idC, some issX, some subS, some devD, none, none,
            none, some ownerStr, none, none, none, some true⟩)
          devD 0 ⟨"", false, none, []⟩ ⟨true, true, true, true⟩).2
        ⟨true, true, true, true⟩).1 = CredServiceResult.accepted ∧
    issY ≠ issX := by
  refine ⟨by decide, by decide, by decide, by decide, by decide⟩

end CredService

/-- C1 (amended): in the VC-presentation provisioning handler
(`handle_vc_exchange_message`), a credential is accepted only if the
presented issuer has canonical length 64 and the device is unowned, and
a well-formed presentation arriving while the device is owned is
rejected as `alreadyOwned` with the state unchanged.  The
credential-service handler (`handle_credential_service`), by contrast,
checks no issuer length at all: it rejects only when an owner exists
and the candidate's **subject** differs from the stored owner, and
otherwise requires only `validate_credential` (device id match,
validity flag, expiry, ownership type). -/
theorem provisioning_acceptance_rules
    (st : Provision.VcDeviceState) (ip : String) (port : Nat)
    (f : Provision.NvsFaults) (pur blob iss : String)
    (stC : CredService.CredHandlerState) (p : CredService.CredPayload)
    (devId : String) (now : Int) (fC : CredService.CredFaults)
    (cred : CredService.ParsedCred)
    (hp : CredService.parse_credential_json p = some cred) :
    ((Provision.handle_vc_exchange_message
        (some ⟨some Provision.presentVcStr, some pur, some ⟨some iss, blob⟩⟩)
        st ip port f).1 = Provision.VcProvisionResult.provisioned →
      iss.length = 64 ∧ Provision.has_owner st.nvs = false) ∧
    (pur = Provision.deviceProvisioningStr → iss.length = 64 →
      Provision.has_owner st.nvs = true →
      Provision.handle_vc_exchange_message
        (some ⟨some Provision.presentVcStr, some pur, some ⟨some iss, blob⟩⟩)
        st ip port f = (Provision.VcProvisionResult.alreadyOwned, st)) ∧
    ((CredService.handle_credential_service p devId now stC fC).1 =
        CredService.CredServiceResult.accepted →
      ¬(CredService.has_owner stC = true ∧ stC.current_owner ≠ cred.sub) ∧
      CredService.validate_credential cred devId now = true) := by
  refine ⟨?_, ?_, ?_⟩
  · intro h
    unfold Provision.handle_vc_exchange_message at h
    dsimp only at h
    rw [if_neg (by decide : ¬(Provision.presentVcStr = Provision.vcRequestStr)),
      if_pos rfl] at h
    by_cases h3 : pur = Provision.deviceProvisioningStr
    · rw [if_pos h3] at h
      by_cases h4 : iss.length ≠ 64
      · rw [if_pos h4] at h
        simp at h
      · rw [if_neg h4] at h
        by_cases h5 : Provision.has_owner st.nvs = true
        · rw [if_pos h5] at h
          simp at h
        · refine ⟨by omega, by revert h5; cases Provision.has_owner st.nvs <;> simp⟩
    · rw [if_neg h3] at h
      simp at h
  · intro hpur hlen howned
    subst hpur
    unfold Provision.handle_vc_exchange_message
    dsimp only
    rw [if_neg (by decide : ¬(Provision.presentVcStr = Provision.vcRequestStr)),
      if_pos rfl, if_pos rfl,
      if_neg (fun hc : iss.length ≠ 64 => hc hlen), if_pos howned]
  · intro h
    unfold CredService.handle_credential_service at h
    rw [hp] at h
    dsimp only at h
    by_cases hrej : CredService.has_owner stC = true ∧ stC.current_owner ≠ cred.sub
    · rw [if_pos hrej] at h
      simp at h
    · rw [if_neg hrej] at h
      by_cases hv : CredService.validate_credential cred devId now = true
      · exact ⟨hrej, hv⟩
      · rw [if_pos (by simp [hv])] at h
        simp at h

/-- Witness for the amended C1 theorem at a concrete unowned device and a
concrete parsed credential. -/
theorem provisioning_acceptance_rules_witness :
    ((Provision.handle_vc_exchange_message
        (some ⟨some Provision.presentVcStr, some Provision.deviceProvisioningStr,
          some ⟨some Provision.issuer64, Provision.blobA⟩⟩)
        ⟨⟨none, none, none⟩, false, none, true, false, Provision.ipA, 0, false⟩
        Provision.ipA 7 ⟨true, true, true, true, true⟩).1 =
        Provision.VcProvisionResult.provisioned →
      Provision.issuer64.length = 64 ∧
      Provision.has_owner
        (⟨⟨none, none, none⟩, false, none, true, false, Provision.ipA, 0, false⟩ :
          Provision.VcDeviceState).nvs = false) ∧
    (Provision.deviceProvisioningStr = Provision.deviceProvisioningStr →
      Provision.issuer64.length = 64 →
      Provision.has_owner
        (⟨⟨none, none, none⟩, false, none, true, false, Provision.ipA, 0, false⟩ :
          Provision.VcDeviceState).nvs = true →
      Provision.handle_vc_exchange_message
        (some ⟨some Provision.presentVcStr, some Provision.deviceProvisioningStr,
          some ⟨some Provision.issuer64, Provision.blobA⟩⟩)
        ⟨⟨none, none, none⟩, false, none, true, false, Provision.ipA, 0, false⟩
        Provision.ipA 7 ⟨true, true, true, true, true⟩ =
        (Provision.VcProvisionResult.alreadyOwned,
          ⟨⟨none, none, none⟩, false, none, true, false, Provision.ipA, 0, false⟩)) ∧
    ((CredService.handle_credential_service
        (CredService.CredPayload.ok
          ⟨some CredService.idC, some CredService.issX, some CredService.subS,
            some CredService.devD, none, none, none, some CredService.ownerStr,
            none, none, none, some true⟩)
        CredService.devD 0 ⟨"", false, none, []⟩ ⟨true, true, true, true⟩).1 =
        CredService.CredServiceResult.accepted →
      ¬(CredService.has_owner (⟨"", false, none, []⟩ : CredService.CredHandlerState) =
          true ∧
        (⟨"", false, none, []⟩ : CredService.CredHandlerState).current_owner ≠
          (⟨CredService.idC, CredService.issX, CredService.subS, CredService.devD,
            "", 0, 0, CredService.ownerStr, "", "", "", true⟩ :
            CredService.ParsedCred).sub) ∧
      CredService.validate_credential
        ⟨CredService.idC, CredService.issX, CredService.subS, CredService.devD,
          "", 0, 0, CredService.ownerStr, "", "", "", true⟩
        CredService.devD 0 = true) :=
  provisioning_acceptance_rules
    ⟨⟨none, none, none⟩, false, none, true, false, Provision.ipA, 0, false⟩
    Provision.ipA 7 ⟨true, true, true, true, true⟩
    Provision.deviceProvisioningStr Provision.blobA Provision.issuer64
    ⟨"", false, none, []⟩
    (CredService.CredPayload.ok
      ⟨some CredService.idC, some CredService.issX, some CredService.subS,
        some CredService.devD, none, none, none, some CredService.ownerStr,
        none, none, none, some true⟩)
    CredService.devD 0 ⟨true, true, true, true⟩
    ⟨CredService.idC, CredService.issX, CredService.subS, CredService.devD,
      "", 0, 0, CredService.ownerStr, "", "", "", true⟩
    (by decide)
